import Mathlib

/-!
Verification of the ml_api anonymization engine.

Shallow embedding of the core anonymization code:
  * src/anonym/anonym.py        (class AnonymDICOM: profile-driven DICOM
    anonymizer, audit/diff engine, batch run loop)
  * src/app/core/security.py    (hash_patient_id)
  * src/app/core/config.py      (SECRET_PEPPER)
  * src/app/routers/anonymization.py (class AnonymizerEngine, the HTTP port)

Modelling conventions:
  * A pydicom Dataset is a list of elements; an element carries its keyword,
    its VR string, a privateness flag (tag group parity) and a value.  Values
    are scalar strings, multi-valued string lists (VM > 1), or sequences of
    item datasets (VR SQ).
  * pydicom.uid.generate_uid() draws a fresh random unique identifier; it is
    modelled as an injective supply indexed by a counter threaded through the
    state (field supply), exactly one increment per generated identifier.
  * hashlib.sha256(...).hexdigest() is an external library call; it is
    modelled by an explicit digest parameter (a real hexdigest is a 64
    character string, carried as a hypothesis where a theorem needs it).
  * os.getenv is modelled by an explicit environment lookup parameter.
  * Python in-place mutation of datasets/state is modelled by explicit state
    passing: each mutating method returns the updated value.  Note that
    AnonymDICOM._process_dataset_recursive mutates the dataset object passed
    to it and returns that same object (anonym.py line 136).
-/

set_option linter.unusedVariables false

namespace MlApi

/-- Fresh unique-identifier supply, modelling pydicom.uid.generate_uid().
The real function returns a fresh random dotted-numeric UID with prefix
1.2.826.0.1.3680043.8.498.; we index generation by a counter and make the
result injective in the counter, which models global freshness. -/
def genUid (n : Nat) : String :=
  "1.2.826.0.1.3680043.8.498." ++ String.mk (List.replicate n '1')

mutual
/-- Value of a DICOM element: a scalar string, a multi-valued list of
strings, or (VR SQ) a list of item datasets. -/
inductive Value where
  | str  (s : String) : Value
  | strs (ss : List String) : Value
  | seq  (items : List (List Elem)) : Value

/-- A DICOM data element: keyword (empty when the tag is not in the
dictionary), VR string, privateness of the tag, and value. -/
inductive Elem where
  | mk (keyword vr : String) (priv : Bool) (val : Value) : Elem
end

mutual
/-- Boolean equality on element values. -/
def Value.beq (a b : Value) : Bool :=
  match a, b with
  | .str x, .str y => x == y
  | .strs x, .strs y => x == y
  | .seq x, .seq y => beqItems x y
  | _, _ => false
termination_by structural a

/-- Boolean equality on elements. -/
def Elem.beq (a b : Elem) : Bool :=
  match a, b with
  | .mk k v p x, .mk k2 v2 p2 x2 => k == k2 && v == v2 && p == p2 && Value.beq x x2
termination_by structural a

/-- Boolean equality on element lists. -/
def beqElems (a b : List Elem) : Bool :=
  match a, b with
  | [], [] => true
  | x :: xs, y :: ys => Elem.beq x y && beqElems xs ys
  | _, _ => false
termination_by structural a

/-- Boolean equality on sequence item lists. -/
def beqItems (a b : List (List Elem)) : Bool :=
  match a, b with
  | [], [] => true
  | x :: xs, y :: ys => beqElems x y && beqItems xs ys
  | _, _ => false
termination_by structural a
end

mutual
theorem value_beq_iff : ∀ a b : Value, Value.beq a b = true ↔ a = b
  | .str a, .str b => by simp [Value.beq]
  | .str a, .strs b => by simp [Value.beq]
  | .str a, .seq b => by simp [Value.beq]
  | .strs a, .str b => by simp [Value.beq]
  | .strs a, .strs b => by simp [Value.beq]
  | .strs a, .seq b => by simp [Value.beq]
  | .seq a, .str b => by simp [Value.beq]
  | .seq a, .strs b => by simp [Value.beq]
  | .seq a, .seq b => by simp [Value.beq, beqItems_iff a b]

theorem elem_beq_iff : ∀ a b : Elem, Elem.beq a b = true ↔ a = b
  | .mk k v p x, .mk k2 v2 p2 x2 => by
    simp [Elem.beq, value_beq_iff x x2, and_assoc]

theorem beqElems_iff : ∀ a b : List Elem, beqElems a b = true ↔ a = b
  | [], [] => by simp [beqElems]
  | [], b :: bs => by simp [beqElems]
  | a :: as, [] => by simp [beqElems]
  | a :: as, b :: bs => by
    simp [beqElems, elem_beq_iff a b, beqElems_iff as bs]

theorem beqItems_iff : ∀ a b : List (List Elem), beqItems a b = true ↔ a = b
  | [], [] => by simp [beqItems]
  | [], b :: bs => by simp [beqItems]
  | a :: as, [] => by simp [beqItems]
  | a :: as, b :: bs => by
    simp [beqItems, beqElems_iff a b, beqItems_iff as bs]
end

instance : DecidableEq Value := fun a b => decidable_of_iff _ (value_beq_iff a b)

instance : DecidableEq Elem := fun a b => decidable_of_iff _ (elem_beq_iff a b)

/-- A pydicom Dataset, as the ordered list of its data elements. -/
abbrev Dataset := List Elem

def Elem.keyword : Elem → String
  | .mk k _ _ _ => k

def Elem.vr : Elem → String
  | .mk _ v _ _ => v

def Elem.priv : Elem → Bool
  | .mk _ _ p _ => p

def Elem.val : Elem → Value
  | .mk _ _ _ v => v

/-- Python truthiness of an element value (empty string and empty list are
falsy). -/
def Value.truthy : Value → Bool
  | .str s => s ≠ ""
  | .strs ss => ¬ ss.isEmpty
  | .seq items => ¬ items.isEmpty

/-- pydicom value multiplicity: 0 for an empty scalar, 1 for a scalar,
list length for a multi-valued element or a sequence. -/
def Value.vm : Value → Nat
  | .str s => if s = "" then 0 else 1
  | .strs ss => ss.length
  | .seq items => items.length

/-- Python str() of an element value, as used by the audit engine.  For a
scalar it is the string itself; for a MultiValue/Sequence Python prints a
bracketed rendering (quoting of the items is irrelevant to the theorems
below and omitted). -/
def Value.pyStr : Value → String
  | .str s => s
  | .strs ss => "[" ++ String.intercalate ", " ss ++ "]"
  | .seq _ => "<Sequence>"

/-- Dataset.get by keyword: first element carrying the keyword.  pydicom
keys datasets by tag; standard tags and keywords are in bijection, so the
embedding keys by keyword. -/
def lookupElem (ds : Dataset) (k : String) : Option Elem :=
  ds.find? (fun e => e.keyword == k)

/-- One audit row produced by AnonymDICOM._compare_recursive. -/
structure AuditRecord where
  tag : String
  action : String
  status : String
  original : String
  anonymized : String
  file : String
deriving DecidableEq

/-- Mutable state of an AnonymDICOM instance (plus the run-loop locals that
persist across files): uid_map, the generate_uid supply counter,
batch_study_uid, batch_series_uid, current_series_key, pesel_number, the
1-based enumerate index of the run loop, audit_log, the saved output files,
and the logged per-file errors. -/
structure St where
  uidMap : List (String × String)
  supply : Nat
  batchStudyUid : String
  batchSeriesUid : Option String
  currentSeriesKey : Option String
  pesel : String
  nextIndex : Nat
  auditLog : List AuditRecord
  outputs : List (String × Dataset)
  errors : List String
deriving DecidableEq

/-- os.getenv with a default. -/
def getenvOr (env : String → Option String) (key dflt : String) : String :=
  (env key).getD dflt

/-- anonym.py line 25: SECRET_PEPPER = os.getenv("PEPPER",
"default_pepper_if_env_missing"). -/
def anonymSecretPepper (env : String → Option String) : String :=
  getenvOr env "PEPPER" "default_pepper_if_env_missing"

/-- app/core/config.py line 8: SECRET_PEPPER = os.getenv("SECRET_PEPPER",
"default_insecure_pepper"). -/
def appSecretPepper (env : String → Option String) : String :=
  getenvOr env "SECRET_PEPPER" "default_insecure_pepper"

/-- app/routers/anonymization.py line 19: self.pepper = os.getenv("PEPPER",
"default_secret_pepper"). -/
def apiEnginePepper (env : String → Option String) : String :=
  getenvOr env "PEPPER" "default_secret_pepper"

/-- AnonymDICOM._generate_hashed_id: digest of the identifier concatenated
with the pepper, with no special case for the empty identifier. -/
def generate_hashed_id (digest : String → String) (pepper original_id : String) : String :=
  digest (original_id ++ pepper)

/-- app/core/security.py hash_patient_id: empty identifier returns "",
otherwise the digest of identifier ++ pepper. -/
def hash_patient_id (digest : String → String) (pepper original_id : String) : String :=
  if original_id = "" then "" else digest (original_id ++ pepper)

/-- The static_defaults dict of _get_replacement_value (identical in
anonym.py and anonymization.py). -/
def static_defaults : List (String × String) :=
  [("DA", ""), ("TM", ""), ("DT", ""),
   ("PN", "ANONYMIZED"), ("AS", "000Y"), ("CS", "U"), ("DS", "0"),
   ("IS", "0"), ("LO", "ANONYMIZED"), ("SH", "ANONYMIZED"),
   ("ST", "ANONYMIZED"), ("LT", "ANONYMIZED"), ("UT", "ANONYMIZED"), ("AE", "ANONYMIZED")]

/-- _get_replacement_value: action D gives "", VR UI draws a fresh UID from
the supply, any other VR gets its static default ("ANONYMIZED" fallback).
Returns the replacement together with the advanced supply. -/
def get_replacement_value (vr action : String) (sup : Nat) : String × Nat :=
  if action = "D" then ("", sup)
  else if vr = "UI" then (genUid sup, sup + 1)
  else ((static_defaults.lookup vr).getD "ANONYMIZED", sup)

/-- AnonymDICOM._generate_consistent_uid: first sight of an original value
stores a freshly generated replacement; later calls return the stored one. -/
def generate_consistent_uid (st : St) (original_uid : String) : String × St :=
  match st.uidMap.lookup original_uid with
  | some r => (r, st)
  | none =>
    let fresh := genUid st.supply
    (fresh, { st with uidMap := st.uidMap ++ [(original_uid, fresh)],
                      supply := st.supply + 1 })

mutual
/-- Dataset.remove_private_tags: pydicom removes every private element,
recursing through all sequence items (Dataset.walk). -/
def remove_private_tags : Dataset → Dataset
  | [] => []
  | e :: es =>
    if e.priv then remove_private_tags es
    else stripPrivElem e :: remove_private_tags es

/-- Strip private elements below one element. -/
def stripPrivElem : Elem → Elem
  | .mk k v p x => .mk k v p (stripPrivValue x)

/-- Strip private elements below one value. -/
def stripPrivValue : Value → Value
  | .str s => .str s
  | .strs ss => .strs ss
  | .seq items => .seq (stripPrivItems items)

/-- Strip private elements in each sequence item. -/
def stripPrivItems : List (List Elem) → List (List Elem)
  | [] => []
  | item :: rest => remove_private_tags item :: stripPrivItems rest
end

/-- The multi-valued arm of action U: remap every value of the MultiValue
through the UID registry, left to right. -/
def remap_strs : St → List String → List String × St
  | st, [] => ([], st)
  | st, s :: ss =>
    let (r, st1) := generate_consistent_uid st s
    let (rest, st2) := remap_strs st1 ss
    (r :: rest, st2)

mutual
/-- The per-element body of the AnonymDICOM._process_dataset_recursive loop
(anonym.py lines 96-135).  Returns the zero-or-one elements that replace the
element in the dataset, plus the updated state.  Order of tests follows the
source: empty keyword is skipped (kept untouched, children included);
StudyInstanceUID / SeriesInstanceUID are forced to the batch scope
identifiers before any profile rule; VR SQ recurses (or drops on X); then the
profile rule runs (X delete, U consistent remap, Z/D replacement; any other
action code leaves the element untouched). -/
def process_elem (rules : String → Option String) : St → Elem → List Elem × St
  | st, .mk k vr p v =>
    if k = "" then ([.mk k vr p v], st)
    else if k = "StudyInstanceUID" then ([.mk k vr p (.str st.batchStudyUid)], st)
    else if k = "SeriesInstanceUID" then
      match st.batchSeriesUid with
      | some u => ([.mk k vr p (.str u)], st)
      | none => ([.mk k vr p v], st)
    else if vr = "SQ" then
      if rules k = some "X" then ([], st)
      else
        match v with
        | .seq items =>
          let (items2, st1) := process_items rules st items
          ([.mk k vr p (.seq items2)], st1)
        | _ => ([.mk k vr p v], st)
    else
      match rules k with
      | none => ([.mk k vr p v], st)
      | some a =>
        if a = "X" then ([], st)
        else if a = "U" then
          if v.truthy then
            if v.vm > 1 then
              match v with
              | .strs ss =>
                let (ss2, st1) := remap_strs st ss
                ([.mk k vr p (.strs ss2)], st1)
              | _ =>
                -- VM > 1 with a non-MultiValue cannot arise for a scalar VR
                let (r, st1) := generate_consistent_uid st v.pyStr
                ([.mk k vr p (.str r)], st1)
            else
              let (r, st1) := generate_consistent_uid st v.pyStr
              ([.mk k vr p (.str r)], st1)
          else ([.mk k vr p v], st)
        else if a = "Z" ∨ a = "D" then
          let (r, sup2) := get_replacement_value vr a st.supply
          ([.mk k vr p (.str r)], { st with supply := sup2 })
        else ([.mk k vr p v], st)

/-- The element loop of _process_dataset_recursive over a dataset. -/
def process_elems (rules : String → Option String) : St → List Elem → List Elem × St
  | st, [] => ([], st)
  | st, e :: es =>
    let (out, st1) := process_elem rules st e
    let (rest, st2) := process_elems rules st1 es
    (out ++ rest, st2)

/-- Recursion of _process_dataset_recursive into the items of a sequence. -/
def process_items (rules : String → Option String) : St → List (List Elem) → List (List Elem) × St
  | st, [] => ([], st)
  | st, item :: rest =>
    let (item2, st1) := process_elems rules st item
    let (rest2, st2) := process_items rules st1 rest
    (item2 :: rest2, st2)
end

/-- AnonymDICOM._process_dataset_recursive.  The source calls
dataset.remove_private_tags() (itself recursive over sequence items) at every
recursion level when remove_private is set; stripping once at entry gives the
same tree, so the embedding strips at entry and loops.  The Python method
mutates its argument in place and returns the same object (line 136); the
embedding returns the resulting dataset alongside the updated state. -/
def process_dataset_recursive (removePriv : Bool) (rules : String → Option String)
    (st : St) (ds : Dataset) : Dataset × St :=
  process_elems rules st (if removePriv then remove_private_tags ds else ds)

/-- pydicom attribute assignment dataset.Keyword = value: overwrite the value
of the existing element (keeping its VR), or append a fresh element with the
dictionary VR for that keyword. -/
def setTag : Dataset → String → String → String → Dataset
  | [], k, vr, v => [.mk k vr false (.str v)]
  | e :: es, k, vr, v =>
    if e.keyword = k then .mk k e.vr e.priv (.str v) :: es
    else e :: setTag es k vr v

/-- AnonymDICOM._finalize_metadata (anonym.py lines 138-148).  The fetched
raw_id (line 139) is dead code in the source: the hash is computed from
self.pesel_number, captured by run() before the transform.  today models
datetime.now().strftime of the processing date. -/
def finalize_metadata (digest : String → String) (pepper today : String)
    (st : St) (ds : Dataset) (index : Nat) : Dataset :=
  let hashed := generate_hashed_id digest pepper st.pesel
  let ds := setTag ds "PatientID" "LO" hashed
  let ds := setTag ds "PatientName" "PN" (hashed.take 8 ++ "^Anonym")
  let ds := setTag ds "StudyDate" "DA" today
  let ds := setTag ds "SeriesDate" "DA" today
  let ds := setTag ds "ContentDate" "DA" today
  let ds := setTag ds "InstanceNumber" "IS" (toString index)
  let ds := setTag ds "PatientIdentityRemoved" "CS" "YES"
  setTag ds "DeidentificationMethod" "LO" "DICOM PS3.15 Basic Profile + SHA256"

/-- State of the HTTP-ported AnonymizerEngine (anonymization.py): uid_map and
the generate_uid supply. -/
structure ESt where
  uidMap : List (String × String)
  supply : Nat
deriving DecidableEq

/-- AnonymizerEngine._generate_consistent_uid (anonymization.py 42-45). -/
def engine_consistent_uid (st : ESt) (original_uid : String) : String × ESt :=
  match st.uidMap.lookup original_uid with
  | some r => (r, st)
  | none =>
    let fresh := genUid st.supply
    (fresh, { st with uidMap := st.uidMap ++ [(original_uid, fresh)],
                      supply := st.supply + 1 })

/-- The multi-valued arm of action U in the HTTP engine. -/
def engine_remap_strs : ESt → List String → List String × ESt
  | st, [] => ([], st)
  | st, s :: ss =>
    let (r, st1) := engine_consistent_uid st s
    let (rest, st2) := engine_remap_strs st1 ss
    (r :: rest, st2)

/-- The body of the rule loop of AnonymizerEngine.anonymize_dataset
(anonymization.py lines 52-68) for one top-level element.  There is no
sequence recursion and no mandatory scope override; an element with an empty
keyword or no profile entry is kept untouched.  Actions X / U / (Z, D) are
applied exactly as in the batch engine; note the Z and D arms also fire on a
sequence element whose keyword is ruled, replacing the whole sequence by a
scalar string.  (A U action on a sequence value would make Python hash a
Dataset and raise; no claim exercises it, the embedding keeps the element.) -/
def engine_elem (rules : String → Option String) : ESt → Elem → List Elem × ESt
  | st, .mk k vr p v =>
    if k = "" ∨ rules k = none then ([.mk k vr p v], st)
    else
      let a := (rules k).getD ""
      if a = "X" then ([], st)
      else if a = "U" then
        if v.truthy then
          if v.vm > 1 then
            match v with
            | .strs ss =>
              let (ss2, st1) := engine_remap_strs st ss
              ([.mk k vr p (.strs ss2)], st1)
            | _ => ([.mk k vr p v], st)
          else
            let (r, st1) := engine_consistent_uid st v.pyStr
            ([.mk k vr p (.str r)], st1)
        else ([.mk k vr p v], st)
      else if a = "Z" ∨ a = "D" then
        let (r, sup2) := get_replacement_value vr a st.supply
        ([.mk k vr p (.str r)], { st with supply := sup2 })
      else ([.mk k vr p v], st)

/-- The flat rule loop over the top-level elements (for elem in list(ds)). -/
def engine_apply_rules (rules : String → Option String) : ESt → Dataset → Dataset × ESt
  | st, [] => ([], st)
  | st, e :: es =>
    let (out, st1) := engine_elem rules st e
    let (rest, st2) := engine_apply_rules rules st1 es
    (out ++ rest, st2)

/-- AnonymizerEngine.anonymize_dataset (anonymization.py lines 47-78):
remove private tags, apply the flat rule loop, then the mandatory metadata:
the patient identifier is fetched AFTER the rules ran (line 71), hashed with
the pepper, and PatientID / PatientName / PatientIdentityRemoved are set. -/
def anonymize_dataset (rules : String → Option String) (digest : String → String)
    (pepper : String) (st : ESt) (ds : Dataset) : Dataset × ESt :=
  let ds1 := remove_private_tags ds
  let (ds2, st1) := engine_apply_rules rules st ds1
  let origPid := match lookupElem ds2 "PatientID" with
                 | some e => e.val.pyStr
                 | none => "UNKNOWN"
  let hashed := digest (origPid ++ pepper)
  let ds3 := setTag ds2 "PatientID" "LO" hashed
  let ds4 := setTag ds3 "PatientName" "PN" (hashed.take 8 ++ "^Anonym")
  (setTag ds4 "PatientIdentityRemoved" "CS" "YES", st1)

/-- Python len() of an element value. -/
def Value.pyLen : Value → Nat
  | .str s => s.length
  | .strs ss => ss.length
  | .seq items => items.length

mutual
/-- One original-side element of AnonymDICOM._compare_recursive (anonym.py
lines 158-189).  The counterpart is looked up in the anonymized dataset;
val_anon is its str() or "MISSING".  The Z and U arms evaluate
str(elem_out.value) without a None guard, so a ruled scalar field missing on
the anonymized side raises AttributeError there; the embedding returns the
exception as Except.error. -/
def compare_one (rules : String → Option String) (dsOut : Dataset) (path : String) :
    Elem → Except String (List AuditRecord)
  | .mk k vr p v =>
    if k = "" then .ok []
    else
      let currentPath := if path = "ROOT" then k else path ++ "." ++ k
      let elemOut := lookupElem dsOut k
      let valOrig := v.pyStr
      let valAnon := match elemOut with
                     | some eo => eo.val.pyStr
                     | none => "MISSING"
      if vr = "SQ" then
        if rules k = some "X" then
          let status := match elemOut with
                        | none => "OK"
                        | some _ => "FAIL (Should delete)"
          .ok [⟨currentPath, "X (Seq)", status, "Seq", valAnon, ""⟩]
        else
          match elemOut, v with
          | some eo, .seq items =>
            if items.isEmpty then .ok []
            else
              match eo.val with
              | .seq outItems => compare_item_lists rules outItems 0 currentPath items
              | outv =>
                -- elem_out.value[i] on a non-Sequence: Python raises once the
                -- pairwise loop dereferences the first index
                if outv.pyLen > 0 then
                  .error "AttributeError: recursing into a non-Sequence value"
                else .ok []
          | _, _ => .ok []
      else
        match rules k with
        | none => .ok []
        | some action =>
          if k = "StudyInstanceUID" ∨ k = "SeriesInstanceUID" then
            .ok [⟨currentPath, action, "OK", valOrig, valAnon, ""⟩]
          else if action = "X" then
            let status := if elemOut.isSome ∧ valAnon ≠ "" then "FAIL (Leak)" else "OK"
            .ok [⟨currentPath, action, status, valOrig, valAnon, ""⟩]
          else if action = "D" then
            let status := if valAnon ≠ "" then "FAIL (Not Empty)" else "OK"
            .ok [⟨currentPath, action, status, valOrig, valAnon, ""⟩]
          else if action = "Z" then
            match elemOut with
            | none => .error "AttributeError: NoneType object has no attribute value"
            | some eo =>
              let status := if valOrig = eo.val.pyStr ∧ valOrig ≠ "" then "FAIL (No Change)"
                            else "OK"
              .ok [⟨currentPath, action, status, valOrig, valAnon, ""⟩]
          else if action = "U" then
            match elemOut with
            | none => .error "AttributeError: NoneType object has no attribute value"
            | some eo =>
              let status := if valOrig = eo.val.pyStr then "FAIL (UID match)" else "OK"
              .ok [⟨currentPath, action, status, valOrig, valAnon, ""⟩]
          else
            .ok [⟨currentPath, action, "OK", valOrig, valAnon, ""⟩]

/-- The element loop of _compare_recursive over the original dataset. -/
def compare_elems (rules : String → Option String) (dsOut : Dataset) (path : String) :
    List Elem → Except String (List AuditRecord)
  | [] => .ok []
  | e :: es => do
    let recs ← compare_one rules dsOut path e
    let rest ← compare_elems rules dsOut path es
    .ok (recs ++ rest)

/-- Pairwise recursion into sequence items by index; indices present only on
the original side are skipped. -/
def compare_item_lists (rules : String → Option String) (outItems : List (List Elem))
    (i : Nat) (cpath : String) :
    List (List Elem) → Except String (List AuditRecord)
  | [] => .ok []
  | item :: rest =>
    if h : i < outItems.length then do
      let recs ← compare_elems rules outItems[i]
                   (cpath ++ "[" ++ toString i ++ "]") item
      let more ← compare_item_lists rules outItems (i + 1) cpath rest
      .ok (recs ++ more)
    else compare_item_lists rules outItems (i + 1) cpath rest
end

/-- AnonymDICOM._compare_recursive entry point (path starts at ROOT). -/
def compare_recursive (rules : String → Option String) (dsIn dsOut : Dataset) :
    Except String (List AuditRecord) :=
  compare_elems rules dsOut "ROOT" dsIn

/-- Stamp the source file name on an audit row (item["File"] = filename). -/
def set_file (f : String) (r : AuditRecord) : AuditRecord :=
  { r with file := f }

/-- AnonymDICOM._compare_files_internal: run the diff, stamp the file name,
append the rows to the run audit log, and count the failing rows (every
failing status begins with "FAIL").  An exception from the diff propagates
(the rows collected so far are discarded with the local diffs list). -/
def compare_files_internal (rules : String → Option String) (st : St)
    (dsOrig dsAnon : Dataset) (filename : String) : Except String (Nat × St) :=
  match compare_recursive rules dsOrig dsAnon with
  | .error e => .error e
  | .ok diffs =>
    let diffs2 := diffs.map (set_file filename)
    .ok ((diffs2.filter (fun d => d.status.startsWith "FAIL")).length,
         { st with auditLog := st.auditLog ++ diffs2 })

/-- One input file of a run: its prepared sorting record (anonym.py run,
lines 246-267).  content models pydicom.dcmread: none is an unreadable file
(the read raises).  seriesSort / imageSort of none model float("inf"). -/
structure FileData where
  name : String
  content : Option Dataset
  seriesSort : Option Nat
  imageSort : Option Nat
  seriesStr : String
  imageStr : String
  isPattern : Bool
deriving DecidableEq

/-- The regex IM-(\d+)-(\d+)\.dcm$ (case-insensitive search): parse from the
end of the name.  Returns the two digit groups. -/
def parseIM (name : String) : Option (String × String) :=
  match (name.data.map Char.toLower).reverse with
  | 'm' :: 'c' :: 'd' :: '.' :: rest =>
    let d2 := rest.takeWhile Char.isDigit
    let rest2 := rest.dropWhile Char.isDigit
    if d2.isEmpty then none
    else
      match rest2 with
      | '-' :: rest3 =>
        let d1 := rest3.takeWhile Char.isDigit
        let rest4 := rest3.dropWhile Char.isDigit
        if d1.isEmpty then none
        else
          match rest4 with
          | '-' :: 'm' :: 'i' :: _ => some (String.mk d1.reverse, String.mk d2.reverse)
          | _ => none
      | _ => none
  | _ => none

/-- Python int() on a digit string. -/
def strDigitsVal (s : String) : Nat :=
  s.data.foldl (fun a c => a * 10 + (c.toNat - 48)) 0

/-- Build the per-file sorting record (anonym.py run, lines 246-267). -/
def mkFileData (f : String × Option Dataset) : FileData :=
  match parseIM f.1 with
  | some (s, i) =>
    ⟨f.1, f.2, some (strDigitsVal s), some (strDigitsVal i), s, i, true⟩
  | none =>
    ⟨f.1, f.2, none, none, "NON_PATTERN", "0000", false⟩

/-- Strict order on sort components, none modelling float("inf"). -/
def optLt : Option Nat → Option Nat → Bool
  | some a, some b => a < b
  | some _, none => true
  | none, _ => false

/-- Python tuple comparison of (series_sort, image_sort) keys. -/
def sortKeyLe (a b : FileData) : Bool :=
  optLt a.seriesSort b.seriesSort ||
    (a.seriesSort == b.seriesSort &&
      (optLt a.imageSort b.imageSort || a.imageSort == b.imageSort))

/-- Stable insertion used to model Python list.sort (stable): a later file
goes after every earlier file with an equal key. -/
def insertStable (x : FileData) : List FileData → List FileData
  | [] => [x]
  | y :: ys => if sortKeyLe y x then y :: insertStable x ys else x :: y :: ys

/-- Stable sort of the file records by (series_sort, image_sort). -/
def sortFiles (l : List FileData) : List FileData :=
  l.foldl (fun acc x => insertStable x acc) []

/-- The series-boundary step of the run loop (anonym.py lines 290-295): when
the series string of the file differs from the current series key, draw a
fresh batch_series_uid and record the new key. -/
def seriesStep (st : St) (key : String) : St :=
  if st.currentSeriesKey = some key then st
  else { st with batchSeriesUid := some (genUid st.supply),
                 supply := st.supply + 1,
                 currentSeriesKey := some key }

/-- study_prefix: last dotted component of the batch study UID, last 6
characters (anonym.py line 280). -/
def studyFrag (uid : String) : String :=
  let last := (uid.splitOn ".").getLastD ""
  String.mk (last.data.drop (last.data.length - 6))

/-- Python f-string zero padding of the 1-based index. -/
def zeroPad (width n : Nat) : String :=
  let s := toString n
  String.mk (List.replicate (width - s.length) '0') ++ s

/-- Output file naming (anonym.py lines 304-307). -/
def outputName (batchUid : String) (padding : Nat) (fd : FileData) (index : Nat) : String :=
  if fd.isPattern then "AN-" ++ fd.seriesStr ++ "-" ++ fd.imageStr ++ ".dcm"
  else "ST_" ++ studyFrag batchUid ++ "_" ++ zeroPad padding index ++ ".dcm"

/-- The body of the run loop for one file (anonym.py lines 283-315),
try/except included: the series step runs first; an unreadable file
(content none, dcmread raises) or a diff exception is caught, logged to
errors, and the loop moves on.  State mutated before the raise (series key,
pesel, uid map, a saved output) is kept, as in Python. -/
def processFile (removePriv : Bool) (rules : String → Option String)
    (digest : String → String) (pepper today : String) (padding : Nat)
    (st : St) (fd : FileData) : St :=
  let index := st.nextIndex
  let st := { st with nextIndex := index + 1 }
  let st := seriesStep st fd.seriesStr
  match fd.content with
  | none => { st with errors := st.errors ++ ["Error processing " ++ fd.name] }
  | some ds =>
    let st := { st with pesel := (match lookupElem ds "PatientID" with
                                  | some e => e.val.pyStr
                                  | none => "") }
    let (ds1, st) := process_dataset_recursive removePriv rules st ds
    let ds2 := finalize_metadata digest pepper today st ds1 index
    let fname := outputName st.batchStudyUid padding fd index
    let st := { st with outputs := st.outputs ++ [(fname, ds2)] }
    match compare_files_internal rules st ds ds2 fname with
    | .error _ => { st with errors := st.errors ++ ["Error processing " ++ fd.name] }
    | .ok (_, st2) => st2

/-- Left fold of the run loop over the sorted file records. -/
def runFold (removePriv : Bool) (rules : String → Option String)
    (digest : String → String) (pepper today : String) (padding : Nat) :
    St → List FileData → St
  | st, [] => st
  | st, fd :: rest =>
    runFold removePriv rules digest pepper today padding
      (processFile removePriv rules digest pepper today padding st fd) rest

/-- State after AnonymDICOM.__init__ and the run preamble: empty uid map and
audit log, batch_study_uid drawn once from the supply, no series uid, no
series key, 1-based file index. -/
def initSt : St :=
  { uidMap := [], supply := 1, batchStudyUid := genUid 0, batchSeriesUid := none,
    currentSeriesKey := none, pesel := "", nextIndex := 1,
    auditLog := [], outputs := [], errors := [] }

/-- AnonymDICOM construction plus run: a missing or unreadable profile makes
the constructor raise before any file is touched (modelled as profile =
none); otherwise the file records are built, stably sorted, and folded
through the per-file loop. -/
def anonym_run (removePriv : Bool) (profile : Option (String → Option String))
    (digest : String → String) (pepper today : String)
    (files : List (String × Option Dataset)) : Except String St :=
  match profile with
  | none => Except.error "ProfileLoadError"
  | some rules =>
    let sorted := sortFiles (files.map mkFileData)
    let padding := (toString files.length).length
    Except.ok (runFold removePriv rules digest pepper today padding initSt sorted)

/-! ## Helper predicates used by the theorem statements -/

mutual
/-- Does the tree contain, at any depth, an element with this keyword? -/
def containsKW (k : String) (ds : Dataset) : Bool :=
  match ds with
  | [] => false
  | e :: es => elemHasKW k e || containsKW k es
termination_by structural ds

/-- Does this element or its subtree carry the keyword? -/
def elemHasKW (k : String) (e : Elem) : Bool :=
  match e with
  | .mk k2 _ _ v => k2 == k || valueHasKW k v
termination_by structural e

/-- Does this value contain the keyword below it? -/
def valueHasKW (k : String) (v : Value) : Bool :=
  match v with
  | .seq items => itemsHaveKW k items
  | _ => false
termination_by structural v

/-- Does any sequence item contain the keyword? -/
def itemsHaveKW (k : String) (items : List (List Elem)) : Bool :=
  match items with
  | [] => false
  | item :: rest => containsKW k item || itemsHaveKW k rest
termination_by structural items
end

mutual
/-- Does the tree contain, at any depth, an element with this keyword whose
value is non-empty (Python-truthy)? -/
def containsNonEmptyKW (k : String) (ds : Dataset) : Bool :=
  match ds with
  | [] => false
  | e :: es => elemHasNonEmptyKW k e || containsNonEmptyKW k es
termination_by structural ds

/-- Non-empty-valued keyword occurrence in one element or its subtree. -/
def elemHasNonEmptyKW (k : String) (e : Elem) : Bool :=
  match e with
  | .mk k2 _ _ v => (k2 == k && v.truthy) || valueHasNonEmptyKW k v
termination_by structural e

/-- Non-empty-valued keyword occurrence below a value. -/
def valueHasNonEmptyKW (k : String) (v : Value) : Bool :=
  match v with
  | .seq items => itemsHaveNonEmptyKW k items
  | _ => false
termination_by structural v

/-- Non-empty-valued keyword occurrence in any sequence item. -/
def itemsHaveNonEmptyKW (k : String) (items : List (List Elem)) : Bool :=
  match items with
  | [] => false
  | item :: rest => containsNonEmptyKW k item || itemsHaveNonEmptyKW k rest
termination_by structural items
end

mutual
/-- Well-formedness mirroring pydicom: an element holding a Sequence value
always has VR SQ and a dictionary keyword (the transformer skips an element
with an empty keyword wholesale, so its children would stay unprocessed). -/
def seqOk (ds : Dataset) : Bool :=
  match ds with
  | [] => true
  | e :: es => elemSeqOk e && seqOk es
termination_by structural ds

/-- Sequence well-formedness of one element. -/
def elemSeqOk (e : Elem) : Bool :=
  match e with
  | .mk k vr _ (.seq items) => (!(k == "")) && (vr == "SQ") && itemsSeqOk items
  | .mk _ _ _ _ => true
termination_by structural e

/-- Sequence well-formedness of sequence items. -/
def itemsSeqOk (items : List (List Elem)) : Bool :=
  match items with
  | [] => true
  | item :: rest => seqOk item && itemsSeqOk rest
termination_by structural items
end

/-- Everything of the run state apart from the UID registry (uid map and
supply counter): the batch context (batch and series scope identifiers,
series key), the captured patient identifier, the loop index, the audit log,
the saved outputs and the error log. -/
def ctxOf (st : St) : String × Option String × Option String × String × Nat ×
    List AuditRecord × List (String × Dataset) × List String :=
  (st.batchStudyUid, st.batchSeriesUid, st.currentSeriesKey, st.pesel,
   st.nextIndex, st.auditLog, st.outputs, st.errors)

/-- The series identifiers assigned to a list of (sorted) group keys by the
run loop: one seriesStep per file, emitting the batch_series_uid current
while that file is processed.  This is the Batch Sequencer component of the
run loop (the loop interleaves registry lookups between steps, which touch
only the uid map and advance the same fresh supply). -/
def seriesUids : St → List String → List String
  | _, [] => []
  | st, kk :: ks =>
    (seriesStep st kk).batchSeriesUid.getD "" :: seriesUids (seriesStep st kk) ks

/-- Proof-level trace of the sequencer: the supply token of each assigned
series identifier, folding (current key, current token) and the supply. -/
def seriesToksAux : Option (String × Nat) → Nat → List String → List Nat
  | _, _, [] => []
  | cur, sup, kk :: ks =>
    match cur with
    | some (ck, m) =>
      if ck = kk then m :: seriesToksAux (some (ck, m)) sup ks
      else sup :: seriesToksAux (some (kk, sup)) (sup + 1) ks
    | none => sup :: seriesToksAux (some (kk, sup)) (sup + 1) ks

/-! ## Basic lemmas -/

theorem genUid_injective : Function.Injective genUid := by
  intro m n h
  have hlen : (genUid m).length = (genUid n).length := by rw [h]
  simp only [genUid, String.length_append] at hlen
  have hm : (String.mk (List.replicate m '1')).length = m := by
    simp [String.length]
  have hn : (String.mk (List.replicate n '1')).length = n := by
    simp [String.length]
  omega

theorem containsKW_append (k : String) :
    ∀ a b : Dataset, containsKW k (a ++ b) = (containsKW k a || containsKW k b)
  | [], b => by simp [containsKW]
  | e :: es, b => by
    simp [containsKW, containsKW_append k es b, Bool.or_assoc]

theorem lookup_append_of_some {l l2 : List (String × String)} {k r : String}
    (h : l.lookup k = some r) : (l ++ l2).lookup k = some r := by
  induction l with
  | nil => simp [List.lookup] at h
  | cons a as ih =>
    obtain ⟨a1, a2⟩ := a
    rw [List.cons_append]
    rw [List.lookup] at h ⊢
    by_cases hk : k == a1
    · simpa [hk] using h
    · simp only [hk] at h ⊢
      exact ih h

/-- The uid map only grows: an existing binding survives any further remap
call. -/
theorem generate_consistent_uid_preserves {st : St} {o r : String} (o2 : String)
    (h : st.uidMap.lookup o = some r) :
    (generate_consistent_uid st o2).2.uidMap.lookup o = some r := by
  unfold generate_consistent_uid
  cases hl : st.uidMap.lookup o2 with
  | some r2 => simpa using h
  | none => simpa using lookup_append_of_some h

theorem lookup_append_self {l : List (String × String)} {o : String} (v : String)
    (h : l.lookup o = none) : (l ++ [(o, v)]).lookup o = some v := by
  induction l with
  | nil => simp [List.lookup]
  | cons a as ih =>
    obtain ⟨a1, a2⟩ := a
    rw [List.lookup] at h
    rw [List.cons_append, List.lookup]
    by_cases hk : o == a1
    · simp [hk] at h
    · simp only [hk, Bool.false_eq_true, if_false] at h ⊢
      exact ih h

/-- A remap call leaves its own result bound in the map. -/
theorem generate_consistent_uid_binds (st : St) (o : String) :
    (generate_consistent_uid st o).2.uidMap.lookup o =
      some (generate_consistent_uid st o).1 := by
  unfold generate_consistent_uid
  cases hl : st.uidMap.lookup o with
  | some r => simpa using hl
  | none => simpa using lookup_append_self (genUid st.supply) hl

theorem generate_consistent_uid_ctx (st : St) (o : String) :
    ctxOf (generate_consistent_uid st o).2 = ctxOf st := by
  unfold generate_consistent_uid
  cases st.uidMap.lookup o <;> rfl

theorem remap_strs_ctx : ∀ (os : List String) (st : St),
    ctxOf (remap_strs st os).2 = ctxOf st
  | [], st => rfl
  | s :: ss, st => by
    rw [show remap_strs st (s :: ss) =
          ((generate_consistent_uid st s).1 ::
             (remap_strs (generate_consistent_uid st s).2 ss).1,
           (remap_strs (generate_consistent_uid st s).2 ss).2) from rfl]
    rw [remap_strs_ctx ss _, generate_consistent_uid_ctx]

mutual
theorem process_elem_ctx (rules : String → Option String) :
    ∀ (st : St) (e : Elem), ctxOf (process_elem rules st e).2 = ctxOf st
  | st, .mk k vr p (.str s) => by
    rw [process_elem]
    by_cases h0 : k = ""
    · rw [if_pos h0]
    · rw [if_neg h0]
      by_cases h1 : k = "StudyInstanceUID"
      · rw [if_pos h1]
      · rw [if_neg h1]
        by_cases h2 : k = "SeriesInstanceUID"
        · rw [if_pos h2]
          cases st.batchSeriesUid <;> rfl
        · rw [if_neg h2]
          by_cases h3 : vr = "SQ"
          · rw [if_pos h3]
            by_cases h4 : rules k = some "X"
            · rw [if_pos h4]
            · rw [if_neg h4]
          · rw [if_neg h3]
            cases hr : rules k with
            | none => rfl
            | some a =>
              simp only []
              by_cases h5 : a = "X"
              · rw [if_pos h5]
              · rw [if_neg h5]
                by_cases h6 : a = "U"
                · rw [if_pos h6]
                  by_cases h7 : (Value.str s).truthy = true
                  · rw [if_pos h7]
                    by_cases h8 : (Value.str s).vm > 1
                    · rw [if_pos h8]
                      exact generate_consistent_uid_ctx st _
                    · rw [if_neg h8]
                      exact generate_consistent_uid_ctx st _
                  · rw [if_neg h7]
                · rw [if_neg h6]
                  by_cases h9 : a = "Z" ∨ a = "D"
                  · rw [if_pos h9]
                    rfl
                  · rw [if_neg h9]
    all_goals intro _ h
    all_goals exact Value.noConfusion h
  | st, .mk k vr p (.strs ss) => by
    rw [process_elem]
    by_cases h0 : k = ""
    · rw [if_pos h0]
    · rw [if_neg h0]
      by_cases h1 : k = "StudyInstanceUID"
      · rw [if_pos h1]
      · rw [if_neg h1]
        by_cases h2 : k = "SeriesInstanceUID"
        · rw [if_pos h2]
          cases st.batchSeriesUid <;> rfl
        · rw [if_neg h2]
          by_cases h3 : vr = "SQ"
          · rw [if_pos h3]
            by_cases h4 : rules k = some "X"
            · rw [if_pos h4]
            · rw [if_neg h4]
          · rw [if_neg h3]
            cases hr : rules k with
            | none => rfl
            | some a =>
              simp only []
              by_cases h5 : a = "X"
              · rw [if_pos h5]
              · rw [if_neg h5]
                by_cases h6 : a = "U"
                · rw [if_pos h6]
                  by_cases h7 : (Value.strs ss).truthy = true
                  · rw [if_pos h7]
                    by_cases h8 : (Value.strs ss).vm > 1
                    · rw [if_pos h8]
                      exact remap_strs_ctx ss st
                    · rw [if_neg h8]
                      exact generate_consistent_uid_ctx st _
                  · rw [if_neg h7]
                · rw [if_neg h6]
                  by_cases h9 : a = "Z" ∨ a = "D"
                  · rw [if_pos h9]
                    rfl
                  · rw [if_neg h9]
  | st, .mk k vr p (.seq items) => by
    rw [process_elem]
    by_cases h0 : k = ""
    · rw [if_pos h0]
    · rw [if_neg h0]
      by_cases h1 : k = "StudyInstanceUID"
      · rw [if_pos h1]
      · rw [if_neg h1]
        by_cases h2 : k = "SeriesInstanceUID"
        · rw [if_pos h2]
          cases st.batchSeriesUid <;> rfl
        · rw [if_neg h2]
          by_cases h3 : vr = "SQ"
          · rw [if_pos h3]
            by_cases h4 : rules k = some "X"
            · rw [if_pos h4]
            · rw [if_neg h4]
              exact process_items_ctx rules st items
          · rw [if_neg h3]
            cases hr : rules k with
            | none => rfl
            | some a =>
              simp only []
              by_cases h5 : a = "X"
              · rw [if_pos h5]
              · rw [if_neg h5]
                by_cases h6 : a = "U"
                · rw [if_pos h6]
                  by_cases h7 : (Value.seq items).truthy = true
                  · rw [if_pos h7]
                    by_cases h8 : (Value.seq items).vm > 1
                    · rw [if_pos h8]
                      exact generate_consistent_uid_ctx st _
                    · rw [if_neg h8]
                      exact generate_consistent_uid_ctx st _
                  · rw [if_neg h7]
                · rw [if_neg h6]
                  by_cases h9 : a = "Z" ∨ a = "D"
                  · rw [if_pos h9]
                    rfl
                  · rw [if_neg h9]

theorem process_items_ctx (rules : String → Option String) :
    ∀ (st : St) (items : List (List Elem)),
      ctxOf (process_items rules st items).2 = ctxOf st
  | st, [] => rfl
  | st, item :: rest => by
    rw [show process_items rules st (item :: rest) =
          ((process_elems rules st item).1 ::
             (process_items rules (process_elems rules st item).2 rest).1,
           (process_items rules (process_elems rules st item).2 rest).2) from rfl]
    rw [process_items_ctx rules _ rest, process_elems_ctx rules st item]

theorem process_elems_ctx (rules : String → Option String) :
    ∀ (st : St) (ds : List Elem), ctxOf (process_elems rules st ds).2 = ctxOf st
  | st, [] => rfl
  | st, e :: es => by
    rw [show process_elems rules st (e :: es) =
          ((process_elem rules st e).1 ++
             (process_elems rules (process_elem rules st e).2 es).1,
           (process_elems rules (process_elem rules st e).2 es).2) from rfl]
    rw [process_elems_ctx rules _ es, process_elem_ctx rules st e]
end

theorem process_elems_nil (rules : String → Option String) (st : St) :
    process_elems rules st [] = ([], st) := rfl

theorem process_elems_cons (rules : String → Option String) (st : St) (e : Elem)
    (es : List Elem) :
    process_elems rules st (e :: es) =
      ((process_elem rules st e).1 ++
         (process_elems rules (process_elem rules st e).2 es).1,
       (process_elems rules (process_elem rules st e).2 es).2) := rfl

set_option maxHeartbeats 1000000 in
/-- The transformer loop maps one element to zero replacements (deleted) or
one replacement carrying the same keyword, VR and privateness. -/
theorem process_elem_shape (rules : String → Option String) (st : St) :
    ∀ (e : Elem), (process_elem rules st e).1 = [] ∨
      ∃ v2, (process_elem rules st e).1 = [.mk e.keyword e.vr e.priv v2] := by
  intro e
  obtain ⟨k, vr, p, v⟩ := e
  cases v <;>
    (rw [process_elem]
     repeat' split
     all_goals first
       | exact Or.inl rfl
       | exact Or.inr ⟨_, rfl⟩
       | (intro _ h; exact Value.noConfusion h))

theorem stripPrivElem_keyword (e : Elem) : (stripPrivElem e).keyword = e.keyword := by
  obtain ⟨k, vr, p, v⟩ := e
  cases v <;> rfl

theorem Elem.keyword_mk (k vr : String) (p : Bool) (v : Value) :
    (Elem.mk k vr p v).keyword = k := rfl

/-- Attribute assignment on another keyword does not change what a lookup of
this keyword sees. -/
theorem setTag_lookup_ne (k k2 vr v : String) (hne : k ≠ k2) :
    ∀ ds : Dataset, lookupElem (setTag ds k2 vr v) k = lookupElem ds k := by
  have hb : (k2 == k) = false := by
    simp only [beq_eq_false_iff_ne, ne_eq]
    intro h
    exact hne h.symm
  intro ds
  induction ds with
  | nil =>
    simp [setTag, lookupElem, List.find?, Elem.keyword, hb]
  | cons e es ih =>
    rw [setTag]
    by_cases he : e.keyword = k2
    · rw [if_pos he]
      have h2 : (e.keyword == k) = false := by rw [he]; exact hb
      simp only [lookupElem, List.find?, Elem.keyword_mk, hb, h2]
    · rw [if_neg he]
      simp only [lookupElem, List.find?]
      cases hk : e.keyword == k with
      | true => rfl
      | false => exact ih

/-- Recursive private-tag removal keeps the first element found under a
keyword, provided that element is not itself private (its subtree is
stripped). -/
theorem remove_private_lookup (k : String) :
    ∀ (ds : Dataset) (e : Elem), lookupElem ds k = some e → e.priv = false →
      lookupElem (remove_private_tags ds) k = some (stripPrivElem e) := by
  intro ds
  induction ds with
  | nil =>
    intro e h
    simp [lookupElem, List.find?] at h
  | cons e0 es ih =>
    intro e h hp
    simp only [lookupElem, List.find?] at h
    cases hk : e0.keyword == k with
    | true =>
      rw [hk] at h
      injection h with h
      subst h
      rw [remove_private_tags, hp]
      simp only [Bool.false_eq_true, if_false]
      simp only [lookupElem, List.find?, stripPrivElem_keyword, hk]
    | false =>
      rw [hk] at h
      rw [remove_private_tags]
      cases hp0 : e0.priv with
      | true =>
        rw [if_pos rfl]
        exact ih e h hp
      | false =>
        rw [if_neg (by simp)]
        simp only [lookupElem, List.find?]
        have hks : ((stripPrivElem e0).keyword == k) = false := by
          rw [stripPrivElem_keyword]; exact hk
        rw [hks]
        exact ih e h hp

theorem process_elem_bsu (rules : String → Option String) (st : St) (e : Elem) :
    (process_elem rules st e).2.batchSeriesUid = st.batchSeriesUid :=
  congrArg (fun t => t.2.1) (process_elem_ctx rules st e)

theorem process_elems_bsu (rules : String → Option String) (st : St) (ds : List Elem) :
    (process_elems rules st ds).2.batchSeriesUid = st.batchSeriesUid :=
  congrArg (fun t => t.2.1) (process_elems_ctx rules st ds)

theorem containsKW_singleton (k k2 vr : String) (p : Bool) (v : Value)
    (hne : ¬ k2 = k) (hv : valueHasKW k v = false) :
    containsKW k [.mk k2 vr p v] = false := by
  simp [containsKW, elemHasKW, hne, hv]

mutual
/-- Private-tag stripping preserves sequence well-formedness. -/
theorem seqOk_strip : ∀ ds : Dataset, seqOk ds = true →
    seqOk (remove_private_tags ds) = true
  | [], h => h
  | e :: es, h => by
    rw [seqOk] at h
    rw [Bool.and_eq_true] at h
    rw [remove_private_tags]
    cases hp : e.priv with
    | true =>
      rw [if_pos rfl]
      exact seqOk_strip es h.2
    | false =>
      rw [if_neg (by simp)]
      rw [seqOk, Bool.and_eq_true]
      exact ⟨elemSeqOk_strip e h.1, seqOk_strip es h.2⟩

theorem elemSeqOk_strip : ∀ e : Elem, elemSeqOk e = true →
    elemSeqOk (stripPrivElem e) = true
  | .mk k vr p (.str s), h => h
  | .mk k vr p (.strs ss), h => h
  | .mk k vr p (.seq items), h => by
    rw [elemSeqOk] at h
    rw [stripPrivElem, stripPrivValue, elemSeqOk]
    rw [Bool.and_eq_true, Bool.and_eq_true] at h ⊢
    exact ⟨h.1, itemsSeqOk_strip items h.2⟩

theorem itemsSeqOk_strip : ∀ items : List (List Elem), itemsSeqOk items = true →
    itemsSeqOk (stripPrivItems items) = true
  | [], h => h
  | item :: rest, h => by
    rw [itemsSeqOk] at h
    rw [Bool.and_eq_true] at h
    rw [stripPrivItems, itemsSeqOk, Bool.and_eq_true]
    exact ⟨seqOk_strip item h.1, itemsSeqOk_strip rest h.2⟩
end

/-- Attribute assignment on another keyword cannot introduce an occurrence of
this keyword anywhere in the tree. -/
theorem containsKW_setTag (k k2 vr v : String) (hneq : k ≠ k2) :
    ∀ ds : Dataset, containsKW k ds = false →
      containsKW k (setTag ds k2 vr v) = false := by
  intro ds
  induction ds with
  | nil =>
    intro h
    rw [setTag]
    exact containsKW_singleton k k2 vr false (.str v) (fun hc => hneq hc.symm) rfl
  | cons e es ih =>
    intro h
    rw [containsKW, Bool.or_eq_false_iff] at h
    rw [setTag]
    by_cases he : e.keyword = k2
    · rw [if_pos he]
      rw [containsKW, Bool.or_eq_false_iff]
      refine ⟨?_, h.2⟩
      rw [elemHasKW, Bool.or_eq_false_iff]
      constructor
      · simp only [beq_eq_false_iff_ne, ne_eq]
        intro hc
        exact hneq hc.symm
      · rfl
    · rw [if_neg he]
      rw [containsKW, Bool.or_eq_false_iff]
      exact ⟨h.1, ih h.2⟩

mutual
/-- After the transform, a field identifier ruled Remove (X) that is not one
of the two mandatory-override fields occurs nowhere in the replacement of a
well-formed element. -/
theorem process_elem_no_kw (rules : String → Option String) (k : String)
    (hk : rules k = some "X") (hk0 : k ≠ "") (hk1 : k ≠ "StudyInstanceUID")
    (hk2 : k ≠ "SeriesInstanceUID") :
    ∀ (st : St) (e : Elem), st.batchSeriesUid.isSome = true → elemSeqOk e = true →
      containsKW k (process_elem rules st e).1 = false
  | st, .mk k2 vr p (.str s), hbs, hok => by
    rw [process_elem]
    by_cases h0 : k2 = ""
    · rw [if_pos h0]
      exact containsKW_singleton k k2 vr p _ (fun h => hk0 (h.symm.trans h0)) rfl
    · rw [if_neg h0]
      by_cases h1 : k2 = "StudyInstanceUID"
      · rw [if_pos h1]
        exact containsKW_singleton k k2 vr p _ (fun h => hk1 (h.symm.trans h1)) rfl
      · rw [if_neg h1]
        by_cases h2 : k2 = "SeriesInstanceUID"
        · rw [if_pos h2]
          obtain ⟨u, hu⟩ := Option.isSome_iff_exists.mp hbs
          rw [hu]
          exact containsKW_singleton k k2 vr p _ (fun h => hk2 (h.symm.trans h2)) rfl
        · rw [if_neg h2]
          by_cases h3 : vr = "SQ"
          · rw [if_pos h3]
            by_cases h4 : rules k2 = some "X"
            · rw [if_pos h4]
              rfl
            · rw [if_neg h4]
              refine containsKW_singleton k k2 vr p _ (fun h => h4 ?_) rfl
              rw [h]
              exact hk
          · rw [if_neg h3]
            cases hr : rules k2 with
            | none =>
              refine containsKW_singleton k k2 vr p _ (fun h => ?_) rfl
              rw [h, hk] at hr
              cases hr
            | some a =>
              simp only []
              by_cases h5 : a = "X"
              · rw [if_pos h5]
                rfl
              · have hnk : ¬ k2 = k := by
                  intro h
                  rw [h, hk] at hr
                  exact h5 (Option.some.inj hr).symm
                rw [if_neg h5]
                by_cases h6 : a = "U"
                · rw [if_pos h6]
                  by_cases h7 : (Value.str s).truthy = true
                  · rw [if_pos h7]
                    by_cases h8 : (Value.str s).vm > 1
                    · rw [if_pos h8]
                      exact containsKW_singleton k k2 vr p _ hnk rfl
                    · rw [if_neg h8]
                      exact containsKW_singleton k k2 vr p _ hnk rfl
                  · rw [if_neg h7]
                    exact containsKW_singleton k k2 vr p _ hnk rfl
                · rw [if_neg h6]
                  by_cases h9 : a = "Z" ∨ a = "D"
                  · rw [if_pos h9]
                    exact containsKW_singleton k k2 vr p _ hnk rfl
                  · rw [if_neg h9]
                    exact containsKW_singleton k k2 vr p _ hnk rfl
    all_goals intro _ h
    all_goals exact Value.noConfusion h
  | st, .mk k2 vr p (.strs ss), hbs, hok => by
    rw [process_elem]
    by_cases h0 : k2 = ""
    · rw [if_pos h0]
      exact containsKW_singleton k k2 vr p _ (fun h => hk0 (h.symm.trans h0)) rfl
    · rw [if_neg h0]
      by_cases h1 : k2 = "StudyInstanceUID"
      · rw [if_pos h1]
        exact containsKW_singleton k k2 vr p _ (fun h => hk1 (h.symm.trans h1)) rfl
      · rw [if_neg h1]
        by_cases h2 : k2 = "SeriesInstanceUID"
        · rw [if_pos h2]
          obtain ⟨u, hu⟩ := Option.isSome_iff_exists.mp hbs
          rw [hu]
          exact containsKW_singleton k k2 vr p _ (fun h => hk2 (h.symm.trans h2)) rfl
        · rw [if_neg h2]
          by_cases h3 : vr = "SQ"
          · rw [if_pos h3]
            by_cases h4 : rules k2 = some "X"
            · rw [if_pos h4]
              rfl
            · rw [if_neg h4]
              refine containsKW_singleton k k2 vr p _ (fun h => h4 ?_) rfl
              rw [h]
              exact hk
          · rw [if_neg h3]
            cases hr : rules k2 with
            | none =>
              refine containsKW_singleton k k2 vr p _ (fun h => ?_) rfl
              rw [h, hk] at hr
              cases hr
            | some a =>
              simp only []
              by_cases h5 : a = "X"
              · rw [if_pos h5]
                rfl
              · have hnk : ¬ k2 = k := by
                  intro h
                  rw [h, hk] at hr
                  exact h5 (Option.some.inj hr).symm
                rw [if_neg h5]
                by_cases h6 : a = "U"
                · rw [if_pos h6]
                  by_cases h7 : (Value.strs ss).truthy = true
                  · rw [if_pos h7]
                    by_cases h8 : (Value.strs ss).vm > 1
                    · rw [if_pos h8]
                      exact containsKW_singleton k k2 vr p _ hnk rfl
                    · rw [if_neg h8]
                      exact containsKW_singleton k k2 vr p _ hnk rfl
                  · rw [if_neg h7]
                    exact containsKW_singleton k k2 vr p _ hnk rfl
                · rw [if_neg h6]
                  by_cases h9 : a = "Z" ∨ a = "D"
                  · rw [if_pos h9]
                    exact containsKW_singleton k k2 vr p _ hnk rfl
                  · rw [if_neg h9]
                    exact containsKW_singleton k k2 vr p _ hnk rfl
  | st, .mk k2 vr p (.seq items), hbs, hok => by
    have hok2 := hok
    rw [elemSeqOk] at hok2
    rw [Bool.and_eq_true, Bool.and_eq_true] at hok2
    obtain ⟨⟨hok21, hok22⟩, hok23⟩ := hok2
    have hkw : ¬ k2 = "" := by
      intro h
      rw [h] at hok21
      simp at hok21
    have hvr : vr = "SQ" := by
      simpa using hok22
    rw [process_elem]
    rw [if_neg hkw]
    by_cases h1 : k2 = "StudyInstanceUID"
    · rw [if_pos h1]
      exact containsKW_singleton k k2 vr p _ (fun h => hk1 (h.symm.trans h1)) rfl
    · rw [if_neg h1]
      by_cases h2 : k2 = "SeriesInstanceUID"
      · rw [if_pos h2]
        obtain ⟨u, hu⟩ := Option.isSome_iff_exists.mp hbs
        rw [hu]
        exact containsKW_singleton k k2 vr p _ (fun h => hk2 (h.symm.trans h2)) rfl
      · rw [if_neg h2]
        rw [if_pos hvr]
        by_cases h4 : rules k2 = some "X"
        · rw [if_pos h4]
          rfl
        · rw [if_neg h4]
          refine containsKW_singleton k k2 vr p _ (fun h => h4 ?_) ?_
          · rw [h]
            exact hk
          · rw [valueHasKW]
            exact process_items_no_kw rules k hk hk0 hk1 hk2 st items hbs hok23

theorem process_elems_no_kw (rules : String → Option String) (k : String)
    (hk : rules k = some "X") (hk0 : k ≠ "") (hk1 : k ≠ "StudyInstanceUID")
    (hk2 : k ≠ "SeriesInstanceUID") :
    ∀ (st : St) (ds : List Elem), st.batchSeriesUid.isSome = true → seqOk ds = true →
      containsKW k (process_elems rules st ds).1 = false
  | st, [], hbs, hok => rfl
  | st, e :: es, hbs, hok => by
    rw [seqOk, Bool.and_eq_true] at hok
    rw [process_elems_cons]
    rw [containsKW_append, Bool.or_eq_false_iff]
    constructor
    · exact process_elem_no_kw rules k hk hk0 hk1 hk2 st e hbs hok.1
    · refine process_elems_no_kw rules k hk hk0 hk1 hk2 _ es ?_ hok.2
      rw [process_elem_bsu]
      exact hbs

theorem process_items_no_kw (rules : String → Option String) (k : String)
    (hk : rules k = some "X") (hk0 : k ≠ "") (hk1 : k ≠ "StudyInstanceUID")
    (hk2 : k ≠ "SeriesInstanceUID") :
    ∀ (st : St) (items : List (List Elem)), st.batchSeriesUid.isSome = true →
      itemsSeqOk items = true →
      itemsHaveKW k (process_items rules st items).1 = false
  | st, [], hbs, hok => rfl
  | st, item :: rest, hbs, hok => by
    rw [itemsSeqOk, Bool.and_eq_true] at hok
    rw [show process_items rules st (item :: rest) =
          ((process_elems rules st item).1 ::
             (process_items rules (process_elems rules st item).2 rest).1,
           (process_items rules (process_elems rules st item).2 rest).2) from rfl]
    rw [itemsHaveKW, Bool.or_eq_false_iff]
    constructor
    · exact process_elems_no_kw rules k hk hk0 hk1 hk2 st item hbs hok.1
    · refine process_items_no_kw rules k hk hk0 hk1 hk2 _ rest ?_ hok.2
      rw [process_elems_bsu]
      exact hbs
end

theorem remap_strs_nil (st : St) : remap_strs st [] = ([], st) := rfl

theorem remap_strs_cons (st : St) (s : String) (ss : List String) :
    remap_strs st (s :: ss) =
      ((generate_consistent_uid st s).1 ::
         (remap_strs (generate_consistent_uid st s).2 ss).1,
       (remap_strs (generate_consistent_uid st s).2 ss).2) := rfl

/-- An existing binding survives a whole sequence of remap calls. -/
theorem remap_strs_preserves : ∀ (os : List String) (st : St) (o r : String),
    st.uidMap.lookup o = some r → (remap_strs st os).2.uidMap.lookup o = some r
  | [], st, o, r, h => by simpa [remap_strs_nil] using h
  | s :: ss, st, o, r, h => by
    rw [remap_strs_cons]
    exact remap_strs_preserves ss _ o r (generate_consistent_uid_preserves s h)

/-- Every output of a call sequence equals the final registry binding of its
original. -/
theorem remap_strs_result_lookup : ∀ (os : List String) (st : St) (i : Nat) (o : String),
    os[i]? = some o →
    (remap_strs st os).1[i]? = (remap_strs st os).2.uidMap.lookup o
  | [], st, i, o, h => by simp at h
  | s :: ss, st, 0, o, h => by
    simp only [List.getElem?_cons_zero, Option.some.injEq] at h
    subst h
    rw [remap_strs_cons]
    simp only [List.getElem?_cons_zero]
    exact (remap_strs_preserves ss _ s _
      (generate_consistent_uid_binds st s)).symm
  | s :: ss, st, i + 1, o, h => by
    simp only [List.getElem?_cons_succ] at h
    rw [remap_strs_cons]
    simp only [List.getElem?_cons_succ]
    exact remap_strs_result_lookup ss _ i o h

/-! ## Sequencer lemmas -/

theorem seriesToksAux_nil (cur : Option (String × Nat)) (sup : Nat) :
    seriesToksAux cur sup [] = [] := by
  cases cur with
  | none => rfl
  | some c => rfl

theorem seriesToksAux_cons_none (sup : Nat) (kk : String) (ks : List String) :
    seriesToksAux none sup (kk :: ks) =
      sup :: seriesToksAux (some (kk, sup)) (sup + 1) ks := rfl

theorem seriesToksAux_cons_some (ck : String) (m sup : Nat) (kk : String)
    (ks : List String) :
    seriesToksAux (some (ck, m)) sup (kk :: ks) =
      if ck = kk then m :: seriesToksAux (some (ck, m)) sup ks
      else sup :: seriesToksAux (some (kk, sup)) (sup + 1) ks := rfl

theorem seriesToksAux_length : ∀ (ks : List String) (cur : Option (String × Nat)) (sup : Nat),
    (seriesToksAux cur sup ks).length = ks.length
  | [], cur, sup => by rw [seriesToksAux_nil]; rfl
  | kk :: ks, cur, sup => by
    cases cur with
    | none =>
      rw [seriesToksAux_cons_none]
      simp [seriesToksAux_length ks]
    | some c =>
      obtain ⟨ck, m⟩ := c
      rw [seriesToksAux_cons_some]
      by_cases hck : ck = kk
      · rw [if_pos hck]
        simp [seriesToksAux_length ks]
      · rw [if_neg hck]
        simp [seriesToksAux_length ks]

/-- One step of the token trace: the head token, and the trace continuing
with the head key as current; if the incoming current token is below the
supply, so is the head token below the outgoing supply. -/
theorem seriesToksAux_cons_shape (cur : Option (String × Nat)) (sup : Nat)
    (kk : String) (ks : List String) :
    ∃ t0 sup2,
      seriesToksAux cur sup (kk :: ks) =
        t0 :: seriesToksAux (some (kk, t0)) sup2 ks ∧
      ((∀ ck m, cur = some (ck, m) → m < sup) → t0 < sup2) := by
  cases cur with
  | none =>
    exact ⟨sup, sup + 1, seriesToksAux_cons_none sup kk ks, fun _ => Nat.lt_succ_self sup⟩
  | some c =>
    obtain ⟨ck, m⟩ := c
    by_cases hck : ck = kk
    · subst hck
      refine ⟨m, sup, ?_, fun hw => hw ck m rfl⟩
      rw [seriesToksAux_cons_some, if_pos rfl]
    · refine ⟨sup, sup + 1, ?_, fun _ => Nat.lt_succ_self sup⟩
      rw [seriesToksAux_cons_some, if_neg hck]

/-- Every token of a trace started at (ck, m) with m < sup is either m (for
the current key) or at least sup. -/
theorem seriesToksAux_tok_bound :
    ∀ (rest : List String) (ck : String) (m sup j : Nat) (p : String) (t : Nat),
      m < sup → rest[j]? = some p →
      (seriesToksAux (some (ck, m)) sup rest)[j]? = some t →
      (t = m ∧ p = ck) ∨ sup ≤ t
  | [], _, _, _, j, p, t, hm, hp, ht => by simp at hp
  | kk :: rest, ck, m, sup, 0, p, t, hm, hp, ht => by
    simp only [List.getElem?_cons_zero, Option.some.injEq] at hp
    subst hp
    rw [seriesToksAux_cons_some] at ht
    by_cases hck : ck = kk
    · rw [if_pos hck] at ht
      simp only [List.getElem?_cons_zero, Option.some.injEq] at ht
      exact Or.inl ⟨ht.symm, hck.symm⟩
    · rw [if_neg hck] at ht
      simp only [List.getElem?_cons_zero, Option.some.injEq] at ht
      exact Or.inr (Nat.le_of_eq ht)
  | kk :: rest, ck, m, sup, j + 1, p, t, hm, hp, ht => by
    simp only [List.getElem?_cons_succ] at hp
    rw [seriesToksAux_cons_some] at ht
    by_cases hck : ck = kk
    · rw [if_pos hck] at ht
      simp only [List.getElem?_cons_succ] at ht
      exact seriesToksAux_tok_bound rest ck m sup j p t hm hp ht
    · rw [if_neg hck] at ht
      simp only [List.getElem?_cons_succ] at ht
      rcases seriesToksAux_tok_bound rest kk sup (sup + 1) j p t (Nat.lt_succ_self sup)
          hp ht with ⟨h1, _⟩ | h1
      · exact Or.inr (Nat.le_of_eq h1.symm)
      · exact Or.inr (Nat.le_of_succ_le h1)

/-- Consecutive equal keys receive equal tokens. -/
theorem seriesToksAux_consec :
    ∀ (ks : List String) (cur : Option (String × Nat)) (sup i : Nat),
      ks[i + 1]? = ks[i]? →
      (seriesToksAux cur sup ks)[i + 1]? = (seriesToksAux cur sup ks)[i]?
  | [], cur, sup, i, h => by rw [seriesToksAux_nil]; simp
  | kk :: ks, cur, sup, 0, h => by
    obtain ⟨t0, sup2, heq, -⟩ := seriesToksAux_cons_shape cur sup kk ks
    rw [heq]
    simp only [List.getElem?_cons_succ, List.getElem?_cons_zero] at h ⊢
    cases ks with
    | nil => simp at h
    | cons k1 ks2 =>
      simp only [List.getElem?_cons_zero, Option.some.injEq] at h
      subst h
      rw [seriesToksAux_cons_some, if_pos rfl]
      simp
  | kk :: ks, cur, sup, i + 1, h => by
    obtain ⟨t0, sup2, heq, -⟩ := seriesToksAux_cons_shape cur sup kk ks
    rw [heq]
    simp only [List.getElem?_cons_succ] at h ⊢
    exact seriesToksAux_consec ks (some (kk, t0)) sup2 i h

/-- Distinct keys receive distinct tokens. -/
theorem seriesToksAux_distinct :
    ∀ (ks : List String) (cur : Option (String × Nat)) (sup : Nat),
      (∀ ck m, cur = some (ck, m) → m < sup) →
      ∀ (i j : Nat) (p q : String), i < j → ks[i]? = some p → ks[j]? = some q →
        p ≠ q →
        (seriesToksAux cur sup ks)[i]? ≠ (seriesToksAux cur sup ks)[j]?
  | [], cur, sup, hwf, i, j, p, q, hij, hp, hq, hpq => by simp at hp
  | kk :: ks, cur, sup, hwf, 0, j, p, q, hij, hp, hq, hpq => by
    obtain ⟨t0, sup2, heq, hlt⟩ := seriesToksAux_cons_shape cur sup kk ks
    have ht0 : t0 < sup2 := hlt hwf
    rw [heq]
    simp only [List.getElem?_cons_zero, Option.some.injEq] at hp
    subst hp
    obtain ⟨j2, rfl⟩ : ∃ j2, j = j2 + 1 := ⟨j - 1, by omega⟩
    simp only [List.getElem?_cons_succ] at hq
    simp only [List.getElem?_cons_zero, List.getElem?_cons_succ]
    have hjlt : j2 < ks.length := by
      by_contra hge
      rw [List.getElem?_eq_none (by omega)] at hq
      cases hq
    have hjlt2 : j2 < (seriesToksAux (some (kk, t0)) sup2 ks).length := by
      rw [seriesToksAux_length]
      exact hjlt
    have htsome : (seriesToksAux (some (kk, t0)) sup2 ks)[j2]? =
        some ((seriesToksAux (some (kk, t0)) sup2 ks)[j2]) :=
      List.getElem?_eq_getElem hjlt2
    rcases seriesToksAux_tok_bound ks kk t0 sup2 j2 q _ ht0 hq htsome with ⟨h1, h2⟩ | h1
    · exact absurd h2 (Ne.symm hpq)
    · rw [htsome]
      intro hc
      injection hc with hc
      omega
  | kk :: ks, cur, sup, hwf, i + 1, j, p, q, hij, hp, hq, hpq => by
    obtain ⟨t0, sup2, heq, hlt⟩ := seriesToksAux_cons_shape cur sup kk ks
    have ht0 : t0 < sup2 := hlt hwf
    rw [heq]
    obtain ⟨j2, rfl⟩ : ∃ j2, j = j2 + 1 := ⟨j - 1, by omega⟩
    simp only [List.getElem?_cons_succ] at hp hq ⊢
    exact seriesToksAux_distinct ks (some (kk, t0)) sup2
      (fun ck m hcm => by
        have h2 : t0 = m := congrArg Prod.snd (Option.some.inj hcm)
        rw [← h2]
        exact ht0)
      i j2 p q (by omega) hp hq hpq

/-- The assigned series identifiers are the generate_uid image of the token
trace. -/
theorem seriesUids_eq_toks :
    ∀ (ks : List String) (st : St) (cur : Option (String × Nat)),
      ((st.currentSeriesKey = none ∧ st.batchSeriesUid = none ∧ cur = none) ∨
       (∃ ck m, st.currentSeriesKey = some ck ∧ st.batchSeriesUid = some (genUid m) ∧
                cur = some (ck, m))) →
      seriesUids st ks = (seriesToksAux cur st.supply ks).map genUid
  | [], st, cur, hrel => by rw [seriesToksAux_nil]; rfl
  | kk :: ks, st, cur, hrel => by
    rcases hrel with ⟨hck, hbs, rfl⟩ | ⟨ck, m, hck, hbs, rfl⟩
    · have hstep : seriesStep st kk =
          { st with batchSeriesUid := some (genUid st.supply),
                    supply := st.supply + 1,
                    currentSeriesKey := some kk } := by
        rw [seriesStep, if_neg (by rw [hck]; exact fun hc => Option.noConfusion hc)]
      rw [seriesUids, hstep, seriesToksAux_cons_none]
      simp only [List.map_cons]
      refine congrArg₂ List.cons rfl ?_
      exact seriesUids_eq_toks ks
        { st with batchSeriesUid := some (genUid st.supply),
                  supply := st.supply + 1,
                  currentSeriesKey := some kk }
        (some (kk, st.supply)) (Or.inr ⟨kk, st.supply, rfl, rfl, rfl⟩)
    · by_cases hckk : ck = kk
      · subst hckk
        have hstep : seriesStep st ck = st := by
          rw [seriesStep, if_pos hck]
        rw [seriesUids, hstep, seriesToksAux_cons_some, if_pos rfl]
        simp only [List.map_cons]
        refine congrArg₂ List.cons ?_ ?_
        · rw [hbs]
          rfl
        · exact seriesUids_eq_toks ks st (some (ck, m)) (Or.inr ⟨ck, m, hck, hbs, rfl⟩)
      · have hstep : seriesStep st kk =
            { st with batchSeriesUid := some (genUid st.supply),
                      supply := st.supply + 1,
                      currentSeriesKey := some kk } := by
          rw [seriesStep, if_neg (by
            rw [hck]
            intro hc
            exact hckk (Option.some.inj hc))]
        rw [seriesUids, hstep, seriesToksAux_cons_some, if_neg hckk]
        simp only [List.map_cons]
        refine congrArg₂ List.cons rfl ?_
        exact seriesUids_eq_toks ks
          { st with batchSeriesUid := some (genUid st.supply),
                    supply := st.supply + 1,
                    currentSeriesKey := some kk }
          (some (kk, st.supply)) (Or.inr ⟨kk, st.supply, rfl, rfl, rfl⟩)

/-! ## Claim theorems -/

/-- C5.  Within a run, the UID registry is consistent: (a) a first call with
an original value generates the fresh supply identifier and stores the pair;
(b) any later call with the same original returns the stored replacement and
leaves the state untouched; (c) over any sequence of remap calls — across
files and across the positions of a multi-valued field — equal originals
give equal replacements. -/
theorem c5_uid_registry_consistent :
    (∀ (st : St) (o : String), st.uidMap.lookup o = none →
       (generate_consistent_uid st o).1 = genUid st.supply ∧
       (generate_consistent_uid st o).2.uidMap.lookup o = some (genUid st.supply)) ∧
    (∀ (st : St) (o r : String), st.uidMap.lookup o = some r →
       generate_consistent_uid st o = (r, st)) ∧
    (∀ (st : St) (os : List String) (i j : Nat) (o : String),
       os[i]? = some o → os[j]? = some o →
       (remap_strs st os).1[i]? = (remap_strs st os).1[j]?) := by
  refine ⟨?_, ?_, ?_⟩
  · intro st o h
    constructor
    · unfold generate_consistent_uid
      rw [h]
    · have := generate_consistent_uid_binds st o
      unfold generate_consistent_uid at this ⊢
      rw [h] at this ⊢
      simpa using this
  · intro st o r h
    unfold generate_consistent_uid
    rw [h]
  · intro st os i j o hi hj
    rw [remap_strs_result_lookup os st i o hi, remap_strs_result_lookup os st j o hj]

/-- C5 witness: a concrete three-call run (same original at positions 0 and
2, registry initially empty) returns equal replacements. -/
theorem c5_witness :
    (remap_strs initSt ["1.2.3", "7.8.9", "1.2.3"]).1[0]? =
      (remap_strs initSt ["1.2.3", "7.8.9", "1.2.3"]).1[2]? :=
  c5_uid_registry_consistent.2.2 initSt ["1.2.3", "7.8.9", "1.2.3"] 0 2 "1.2.3" rfl rfl

/-- C2.  The core engine hashes the empty patient identifier like any other:
_generate_hashed_id("") is the digest of the pepper alone and — a real
SHA-256 hexdigest being 64 characters — never the empty string, while the
HTTP service's hash_patient_id implements the specified edge case and
returns "" for an empty identifier. -/
theorem c2_empty_id_hash (digest : String → String) (pepper : String)
    (hd : ∀ s, (digest s).length = 64) :
    generate_hashed_id digest pepper "" = digest pepper ∧
    generate_hashed_id digest pepper "" ≠ "" ∧
    hash_patient_id digest pepper "" = "" := by
  refine ⟨rfl, ?_, rfl⟩
  have h : generate_hashed_id digest pepper "" = digest pepper := rfl
  rw [h]
  intro hc
  have := hd pepper
  rw [hc] at this
  simp [String.length] at this

/-- C2 witness: a concrete 64-character digest stand-in. -/
theorem c2_witness :
    generate_hashed_id
        (fun _ => "0123456789abcdef0123456789abcdef0123456789abcdef0123456789abcdef")
        "pep" "" ≠ "" ∧
    hash_patient_id
        (fun _ => "0123456789abcdef0123456789abcdef0123456789abcdef0123456789abcdef")
        "pep" "" = "" :=
  ⟨(c2_empty_id_hash
      (fun _ => "0123456789abcdef0123456789abcdef0123456789abcdef0123456789abcdef")
      "pep" (fun _ => rfl)).2.1,
   (c2_empty_id_hash
      (fun _ => "0123456789abcdef0123456789abcdef0123456789abcdef0123456789abcdef")
      "pep" (fun _ => rfl)).2.2⟩

/-- C3.  With the pepper variable absent from the environment, every module
silently substitutes its built-in default pepper and continues; no
configuration error exists on this path (anonym.py line 25, config.py line
8, anonymization.py line 19). -/
theorem c3_missing_pepper_defaults :
    anonymSecretPepper (fun _ => none) = "default_pepper_if_env_missing" ∧
    appSecretPepper (fun _ => none) = "default_insecure_pepper" ∧
    apiEnginePepper (fun _ => none) = "default_secret_pepper" :=
  ⟨rfl, rfl, rfl⟩

/-- C4.  The audit engine is not total: a scalar field ruled Z (or U) that is
missing from the anonymized dataset makes _compare_recursive dereference
None (str(elem_out.value), anonym.py lines 183-187) instead of treating the
field as absent — the embedding surfaces the AttributeError as an error
value.  A field ruled X and missing is handled (status OK). -/
theorem c4_compare_raises_on_missing_ruled_field :
    compare_recursive
        (fun k => if k = "PatientAge" then some "Z"
                  else if k = "SOPInstanceUID" then some "U" else none)
        [.mk "PatientAge" "AS" false (.str "045Y")] [] =
      .error "AttributeError: NoneType object has no attribute value" ∧
    compare_recursive
        (fun k => if k = "PatientAge" then some "Z"
                  else if k = "SOPInstanceUID" then some "U" else none)
        [.mk "SOPInstanceUID" "UI" false (.str "1.2.3")] [] =
      .error "AttributeError: NoneType object has no attribute value" ∧
    compare_recursive (fun k => if k = "PatientBirthDate" then some "X" else none)
        [.mk "PatientBirthDate" "DA" false (.str "19500101")] [] =
      .ok [⟨"PatientBirthDate", "X", "OK", "19500101", "MISSING", ""⟩] :=
  ⟨rfl, rfl, rfl⟩

theorem stripPrivItems_idx : ∀ (items : List (List Elem)) (i : Nat) (item : List Elem),
    items[i]? = some item → (stripPrivItems items)[i]? = some (remove_private_tags item)
  | [], i, item, h => by simp at h
  | it :: rest, 0, item, h => by
    simp only [List.getElem?_cons_zero, Option.some.injEq] at h
    subst h
    rw [stripPrivItems]
    simp
  | it :: rest, i + 1, item, h => by
    simp only [List.getElem?_cons_succ] at h
    rw [stripPrivItems]
    simp only [List.getElem?_cons_succ]
    exact stripPrivItems_idx rest i item h

/-- An element with an empty keyword or no profile entry passes the HTTP
engine loop untouched. -/
theorem engine_elem_unruled (rules : String → Option String) (st : ESt) (e : Elem)
    (h : e.keyword = "" ∨ rules e.keyword = none) :
    engine_elem rules st e = ([e], st) := by
  obtain ⟨k, vr, p, v⟩ := e
  simp only [Elem.keyword_mk] at h
  cases v <;>
    (rw [engine_elem, if_pos h]
     all_goals intro _ hx
     all_goals exact Value.noConfusion hx)

set_option maxHeartbeats 1000000 in
/-- The HTTP engine loop maps one element to zero replacements or one
replacement carrying the same keyword, VR and privateness. -/
theorem engine_elem_shape (rules : String → Option String) (st : ESt) :
    ∀ (e : Elem), (engine_elem rules st e).1 = [] ∨
      ∃ v2, (engine_elem rules st e).1 = [.mk e.keyword e.vr e.priv v2] := by
  intro e
  obtain ⟨k, vr, p, v⟩ := e
  cases v <;>
    (rw [engine_elem]
     try simp only []
     repeat' split
     all_goals try simp only []
     all_goals first
       | exact Or.inl rfl
       | exact Or.inl trivial
       | exact Or.inr ⟨_, rfl⟩
       | (intro _ h; exact Value.noConfusion h))

/-- The HTTP engine loop preserves, unchanged and in place, any element whose
keyword has no profile entry. -/
theorem engine_apply_rules_lookup (rules : String → Option String) (k : String)
    (hrule : rules k = none) :
    ∀ (st : ESt) (ds : Dataset) (e : Elem), lookupElem ds k = some e →
      lookupElem (engine_apply_rules rules st ds).1 k = some e
  | st, [], e, h => by simp [lookupElem, List.find?] at h
  | st, e0 :: es, e, h => by
    simp only [lookupElem, List.find?] at h
    cases hc : e0.keyword == k with
    | true =>
      rw [hc] at h
      injection h with h
      subst h
      have hkk : e0.keyword = k := by simpa using hc
      have hker : engine_elem rules st e0 = ([e0], st) :=
        engine_elem_unruled rules st e0 (Or.inr (by rw [hkk]; exact hrule))
      rw [show engine_apply_rules rules st (e0 :: es) =
            ((engine_elem rules st e0).1 ++
               (engine_apply_rules rules (engine_elem rules st e0).2 es).1,
             (engine_apply_rules rules (engine_elem rules st e0).2 es).2) from rfl]
      rw [hker]
      simp only [List.cons_append, List.nil_append, lookupElem, List.find?, hc]
    | false =>
      rw [hc] at h
      rw [show engine_apply_rules rules st (e0 :: es) =
            ((engine_elem rules st e0).1 ++
               (engine_apply_rules rules (engine_elem rules st e0).2 es).1,
             (engine_apply_rules rules (engine_elem rules st e0).2 es).2) from rfl]
      rcases engine_elem_shape rules st e0 with hsh | ⟨v2, hsh⟩
      · rw [hsh, List.nil_append]
        exact engine_apply_rules_lookup rules k hrule _ es e h
      · rw [hsh, List.cons_append, List.nil_append]
        unfold lookupElem
        rw [List.find?]
        have : ((Elem.mk e0.keyword e0.vr e0.priv v2).keyword == k) = false := hc
        rw [this]
        exact engine_apply_rules_lookup rules k hrule _ es e h

/-- The series-boundary step touches only the series identifier, the series
key and the supply. -/
theorem seriesStep_outputs (st : St) (key : String) :
    (seriesStep st key).outputs = st.outputs := by
  unfold seriesStep
  split <;> rfl

theorem seriesStep_auditLog (st : St) (key : String) :
    (seriesStep st key).auditLog = st.auditLog := by
  unfold seriesStep
  split <;> rfl

theorem seriesStep_errors (st : St) (key : String) :
    (seriesStep st key).errors = st.errors := by
  unfold seriesStep
  split <;> rfl

/-- Projections of the transform frame: the audit log, outputs and error log
of the run state are untouched by the transform. -/
theorem process_dr_auditLog (removePriv : Bool) (rules : String → Option String)
    (st : St) (ds : Dataset) :
    (process_dataset_recursive removePriv rules st ds).2.auditLog = st.auditLog := by
  have h : ctxOf (process_dataset_recursive removePriv rules st ds).2 = ctxOf st :=
    process_elems_ctx rules st (if removePriv then remove_private_tags ds else ds)
  simp only [ctxOf, Prod.mk.injEq] at h
  exact h.2.2.2.2.2.1

theorem process_dr_outputs (removePriv : Bool) (rules : String → Option String)
    (st : St) (ds : Dataset) :
    (process_dataset_recursive removePriv rules st ds).2.outputs = st.outputs := by
  have h : ctxOf (process_dataset_recursive removePriv rules st ds).2 = ctxOf st :=
    process_elems_ctx rules st (if removePriv then remove_private_tags ds else ds)
  simp only [ctxOf, Prod.mk.injEq] at h
  exact h.2.2.2.2.2.2.1

theorem process_dr_errors (removePriv : Bool) (rules : String → Option String)
    (st : St) (ds : Dataset) :
    (process_dataset_recursive removePriv rules st ds).2.errors = st.errors := by
  have h : ctxOf (process_dataset_recursive removePriv rules st ds).2 = ctxOf st :=
    process_elems_ctx rules st (if removePriv then remove_private_tags ds else ds)
  simp only [ctxOf, Prod.mk.injEq] at h
  exact h.2.2.2.2.2.2.2

/-- C9.  Per-file failures are isolated: (a) the run loop is a fold, so after
any prefix of files — failures included — processing simply continues with
the remaining files; (b) an unreadable file (dcmread raises) contributes no
output and no audit rows, only a logged error, and leaves everything already
produced unchanged; (c) a readable file always adds exactly one output, and
either its audit rows (diff succeeded, nothing else touched) or — when the
diff raises — no audit rows and one logged error; (d) only the
configuration-time failure (unloadable profile, raised in the constructor)
is fatal: it errors the whole run before any file is processed. -/
theorem c9_per_file_failure_isolated :
    (∀ (removePriv : Bool) (rules : String → Option String)
       (digest : String → String) (pepper today : String) (padding : Nat)
       (st : St) (fs gs : List FileData),
       runFold removePriv rules digest pepper today padding st (fs ++ gs) =
         runFold removePriv rules digest pepper today padding
           (runFold removePriv rules digest pepper today padding st fs) gs) ∧
    (∀ (removePriv : Bool) (rules : String → Option String)
       (digest : String → String) (pepper today : String) (padding : Nat)
       (st : St) (fd : FileData),
       fd.content = none →
       (processFile removePriv rules digest pepper today padding st fd).outputs
           = st.outputs ∧
       (processFile removePriv rules digest pepper today padding st fd).auditLog
           = st.auditLog ∧
       (processFile removePriv rules digest pepper today padding st fd).errors
           = st.errors ++ ["Error processing " ++ fd.name]) ∧
    (∀ (removePriv : Bool) (rules : String → Option String)
       (digest : String → String) (pepper today : String) (padding : Nat)
       (st : St) (fd : FileData) (ds : Dataset),
       fd.content = some ds →
       ∃ out,
         (processFile removePriv rules digest pepper today padding st fd).outputs
             = st.outputs ++ [out] ∧
         ((∃ recs,
            (processFile removePriv rules digest pepper today padding st fd).auditLog
                = st.auditLog ++ recs ∧
            (processFile removePriv rules digest pepper today padding st fd).errors
                = st.errors) ∨
          ((processFile removePriv rules digest pepper today padding st fd).auditLog
                = st.auditLog ∧
           (processFile removePriv rules digest pepper today padding st fd).errors
                = st.errors ++ ["Error processing " ++ fd.name]))) ∧
    (∀ (removePriv : Bool) (digest : String → String) (pepper today : String)
       (files : List (String × Option Dataset)),
       anonym_run removePriv none digest pepper today files =
         Except.error "ProfileLoadError") := by
  refine ⟨?_, ?_, ?_, ?_⟩
  · intro removePriv rules digest pepper today padding st fs gs
    induction fs generalizing st with
    | nil => rfl
    | cons f fs ih =>
      exact ih (processFile removePriv rules digest pepper today padding st f)
  · intro removePriv rules digest pepper today padding st fd hc
    unfold processFile
    rw [hc]
    refine ⟨?_, ?_, ?_⟩
    · exact seriesStep_outputs _ _
    · exact seriesStep_auditLog _ _
    · show (seriesStep { st with nextIndex := st.nextIndex + 1 } fd.seriesStr).errors
          ++ ["Error processing " ++ fd.name] = st.errors ++ ["Error processing " ++ fd.name]
      rw [seriesStep_errors]
  · intro removePriv rules digest pepper today padding st fd ds hc
    unfold processFile
    rw [hc]
    simp only []
    split
    · next e heq =>
      refine ⟨?o1, ?e1, Or.inr ⟨?e2, ?e3⟩⟩
      case e1 =>
        rw [process_dr_outputs, seriesStep_outputs]
        exact rfl
      case e2 =>
        rw [process_dr_auditLog, seriesStep_auditLog]
      case e3 =>
        rw [process_dr_errors, seriesStep_errors]
    · next n st2 heq =>
      rw [compare_files_internal] at heq
      split at heq
      · cases heq
      · next diffs hcr =>
        injection heq with heq
        injection heq with heqn heqst
        subst heqst
        refine ⟨?o2, ?f1, Or.inl ⟨?r2, ?f2, ?f3⟩⟩
        case f1 =>
          rw [process_dr_outputs, seriesStep_outputs]
          exact rfl
        case f2 =>
          rw [process_dr_auditLog, seriesStep_auditLog]
          exact rfl
        case f3 =>
          rw [process_dr_errors, seriesStep_errors]
  · intro removePriv digest pepper today files
    rfl

/-- C9 witness: an unreadable file in the middle of a batch is skipped with
one logged error, and the fold continues over the remaining files from the
state it left. -/
theorem c9_witness :
    ((processFile true (fun _ => none) (fun _ => "H") "p" "20261012" 1 initSt
        ⟨"bad.dcm", none, none, none, "NON_PATTERN", "0000", false⟩).outputs
      = initSt.outputs ∧
     (processFile true (fun _ => none) (fun _ => "H") "p" "20261012" 1 initSt
        ⟨"bad.dcm", none, none, none, "NON_PATTERN", "0000", false⟩).auditLog
      = initSt.auditLog ∧
     (processFile true (fun _ => none) (fun _ => "H") "p" "20261012" 1 initSt
        ⟨"bad.dcm", none, none, none, "NON_PATTERN", "0000", false⟩).errors
      = initSt.errors ++ ["Error processing " ++ "bad.dcm"]) ∧
    runFold true (fun _ => none) (fun _ => "H") "p" "20261012" 1 initSt
        ([⟨"bad.dcm", none, none, none, "NON_PATTERN", "0000", false⟩] ++
         [⟨"IM-1-1.dcm", some [], some 1, some 1, "1", "1", true⟩]) =
      runFold true (fun _ => none) (fun _ => "H") "p" "20261012" 1
        (runFold true (fun _ => none) (fun _ => "H") "p" "20261012" 1 initSt
          [⟨"bad.dcm", none, none, none, "NON_PATTERN", "0000", false⟩])
        [⟨"IM-1-1.dcm", some [], some 1, some 1, "1", "1", true⟩] :=
  ⟨c9_per_file_failure_isolated.2.1 true (fun _ => none) (fun _ => "H") "p"
     "20261012" 1 initSt
     ⟨"bad.dcm", none, none, none, "NON_PATTERN", "0000", false⟩ rfl,
   c9_per_file_failure_isolated.1 true (fun _ => none) (fun _ => "H") "p"
     "20261012" 1 initSt
     [⟨"bad.dcm", none, none, none, "NON_PATTERN", "0000", false⟩]
     [⟨"IM-1-1.dcm", some [], some 1, some 1, "1", "1", true⟩]⟩

/-- C10 counterexample.  The claim fails when the enclosing sequence element
is itself profile-ruled: with ReferencedPatientSequence ruled X, the nested
non-private PatientBirthDate (itself ruled Z) is deleted together with its
container, so its value is not present — let alone identical — in the output
tree. -/
theorem c10_counterexample_ruled_container :
    containsKW "PatientBirthDate"
        (anonymize_dataset
          (fun x => if x = "ReferencedPatientSequence" then some "X"
                    else if x = "PatientBirthDate" then some "Z" else none)
          (fun _ => "HASH") "pep" ⟨[], 0⟩
          [.mk "ReferencedPatientSequence" "SQ" false
             (.seq [[.mk "PatientBirthDate" "DA" false (.str "19500101")]])]).1 =
      false ∧
    containsNonEmptyKW "PatientBirthDate"
        [.mk "ReferencedPatientSequence" "SQ" false
           (.seq [[.mk "PatientBirthDate" "DA" false (.str "19500101")]])] = true :=
  ⟨by decide, by decide⟩

/-- C10 amended.  The HTTP engine applies profile actions only to top-level
elements, so nested elements are out of its reach: whenever the enclosing
top-level sequence element is NOT itself assigned an action (and is not one
of the three finalization fields), that element survives whole — only
private tags are stripped from its subtree — and in particular every nested
non-private scalar element keeps its exact value even when the profile
assigns its identifier a Remove, Clear, ReplaceDefault or Consistent-Remap
action. -/
theorem c10_amended_nested_untouched (rules : String → Option String)
    (digest : String → String) (pepper : String) (st : ESt) (ds : Dataset)
    (k : String) (e : Elem)
    (hfound : lookupElem ds k = some e) (hpriv : e.priv = false)
    (hrule : rules k = none) (hf1 : k ≠ "PatientID") (hf2 : k ≠ "PatientName")
    (hf3 : k ≠ "PatientIdentityRemoved") :
    lookupElem (anonymize_dataset rules digest pepper st ds).1 k =
      some (stripPrivElem e) ∧
    (∀ (items : List (List Elem)) (i : Nat) (item : List Elem) (k2 : String)
       (e2 : Elem) (v2 : String),
       e.val = .seq items → items[i]? = some item → lookupElem item k2 = some e2 →
       e2.priv = false → e2.val = .str v2 →
       ∃ eo outItems item2 e3,
         lookupElem (anonymize_dataset rules digest pepper st ds).1 k = some eo ∧
         eo.val = .seq outItems ∧ outItems[i]? = some item2 ∧
         lookupElem item2 k2 = some e3 ∧ e3.val = .str v2) := by
  have h1 : lookupElem (remove_private_tags ds) k = some (stripPrivElem e) :=
    remove_private_lookup k ds e hfound hpriv
  have h2 : lookupElem
      (engine_apply_rules rules st (remove_private_tags ds)).1 k =
      some (stripPrivElem e) :=
    engine_apply_rules_lookup rules k hrule st _ _ h1
  have hmain : lookupElem (anonymize_dataset rules digest pepper st ds).1 k =
      some (stripPrivElem e) := by
    rw [anonymize_dataset]
    simp only []
    rw [setTag_lookup_ne k "PatientIdentityRemoved" _ _ hf3]
    rw [setTag_lookup_ne k "PatientName" _ _ hf2]
    rw [setTag_lookup_ne k "PatientID" _ _ hf1]
    exact h2
  refine ⟨hmain, ?_⟩
  intro items i item k2 e2 v2 hval hidx hfound2 hpriv2 hval2
  obtain ⟨ke, vre, pe, ve⟩ := e
  simp only [Elem.val] at hval
  subst hval
  refine ⟨stripPrivElem (.mk ke vre pe (.seq items)), stripPrivItems items,
          remove_private_tags item, stripPrivElem e2, hmain, rfl,
          stripPrivItems_idx items i item hidx,
          remove_private_lookup k2 item e2 hfound2 hpriv2, ?_⟩
  obtain ⟨k3, vr3, p3, v3⟩ := e2
  simp only [Elem.val] at hval2
  subst hval2
  rfl

/-- C10 witness: with only the nested PatientBirthDate ruled (Z) and its
container unruled, the nested element keeps its exact value. -/
theorem c10_witness :
    ∃ eo outItems item2 e3,
      lookupElem
          (anonymize_dataset
            (fun x => if x = "PatientBirthDate" then some "Z" else none)
            (fun _ => "HASH") "pep" ⟨[], 0⟩
            [.mk "ReferencedPatientSequence" "SQ" false
               (.seq [[.mk "PatientBirthDate" "DA" false (.str "19500101")]])]).1
          "ReferencedPatientSequence" = some eo ∧
      eo.val = .seq outItems ∧ outItems[0]? = some item2 ∧
      lookupElem item2 "PatientBirthDate" = some e3 ∧ e3.val = .str "19500101" :=
  (c10_amended_nested_untouched
    (fun x => if x = "PatientBirthDate" then some "Z" else none)
    (fun _ => "HASH") "pep" ⟨[], 0⟩
    [.mk "ReferencedPatientSequence" "SQ" false
       (.seq [[.mk "PatientBirthDate" "DA" false (.str "19500101")]])]
    "ReferencedPatientSequence"
    (.mk "ReferencedPatientSequence" "SQ" false
       (.seq [[.mk "PatientBirthDate" "DA" false (.str "19500101")]]))
    rfl rfl rfl (by decide) (by decide) (by decide)).2
    [[.mk "PatientBirthDate" "DA" false (.str "19500101")]] 0
    [.mk "PatientBirthDate" "DA" false (.str "19500101")] "PatientBirthDate"
    (.mk "PatientBirthDate" "DA" false (.str "19500101")) "19500101"
    rfl rfl rfl rfl rfl

/-- C1 counterexample.  A field ruled Remove (X) can still be present with a
non-empty value in the finished tree: StudyInstanceUID ruled X is overwritten
with the batch identifier by the mandatory override (which short-circuits
before the profile is consulted), and PatientID ruled X is deleted but then
re-created by the mandatory finalization with the non-empty identity hash. -/
theorem c1_counterexample_removed_field_reappears :
    containsNonEmptyKW "StudyInstanceUID"
        (finalize_metadata (fun _ => "HASH") "pep" "20261012"
          (process_dataset_recursive true
             (fun k => if k = "StudyInstanceUID" then some "X" else none) initSt
             [.mk "StudyInstanceUID" "UI" false (.str "1.2.3")]).2
          (process_dataset_recursive true
             (fun k => if k = "StudyInstanceUID" then some "X" else none) initSt
             [.mk "StudyInstanceUID" "UI" false (.str "1.2.3")]).1 1) = true ∧
    containsNonEmptyKW "PatientID"
        (finalize_metadata (fun _ => "HASH") "pep" "20261012"
          (process_dataset_recursive true
             (fun k => if k = "PatientID" then some "X" else none) initSt
             [.mk "PatientID" "LO" false (.str "12345678901")]).2
          (process_dataset_recursive true
             (fun k => if k = "PatientID" then some "X" else none) initSt
             [.mk "PatientID" "LO" false (.str "12345678901")]).1 1) = true :=
  ⟨by decide, by decide⟩

/-- C1 amended.  For a field identifier ruled Remove (X) that is neither a
mandatory-override field (StudyInstanceUID, SeriesInstanceUID) nor one of the
fields written by the mandatory finalization, the finished tree contains no
occurrence of the field at any depth (hence none with a non-empty value) —
provided the tree is pydicom-well-formed (sequence values sit in keyworded
SQ elements; an unrecognized keywordless element is skipped with its whole
subtree) and a series identifier has been assigned, as the run loop always
has before transforming. -/
theorem c1_amended_remove_fields_absent
    (removePriv : Bool) (rules : String → Option String)
    (digest : String → String) (pepper today : String) (st : St) (ds : Dataset)
    (index : Nat) (k : String)
    (hk : rules k = some "X") (hk0 : k ≠ "")
    (hk1 : k ≠ "StudyInstanceUID") (hk2 : k ≠ "SeriesInstanceUID")
    (hfin : k ∉ ["PatientID", "PatientName", "StudyDate", "SeriesDate",
                  "ContentDate", "InstanceNumber", "PatientIdentityRemoved",
                  "DeidentificationMethod"])
    (hbs : st.batchSeriesUid.isSome = true) (hok : seqOk ds = true) :
    containsKW k
      (finalize_metadata digest pepper today
        (process_dataset_recursive removePriv rules st ds).2
        (process_dataset_recursive removePriv rules st ds).1 index) = false := by
  have hproc : containsKW k (process_dataset_recursive removePriv rules st ds).1 = false := by
    rw [process_dataset_recursive]
    cases removePriv with
    | false =>
      rw [if_neg (by simp)]
      exact process_elems_no_kw rules k hk hk0 hk1 hk2 st ds hbs hok
    | true =>
      rw [if_pos rfl]
      exact process_elems_no_kw rules k hk hk0 hk1 hk2 st _ hbs (seqOk_strip ds hok)
  simp only [List.mem_cons, List.mem_singleton, not_or] at hfin
  obtain ⟨f1, f2, f3, f4, f5, f6, f7, f8, -⟩ := hfin
  rw [finalize_metadata]
  apply containsKW_setTag _ _ _ _ f8
  apply containsKW_setTag _ _ _ _ f7
  apply containsKW_setTag _ _ _ _ f6
  apply containsKW_setTag _ _ _ _ f5
  apply containsKW_setTag _ _ _ _ f4
  apply containsKW_setTag _ _ _ _ f3
  apply containsKW_setTag _ _ _ _ f2
  apply containsKW_setTag _ _ _ _ f1
  exact hproc

/-- C1 witness: a concrete profile ruling PatientBirthDate X, with the field
present both at top level and nested in a sequence, leaves no occurrence of
it in the finished tree. -/
theorem c1_witness :
    containsKW "PatientBirthDate"
      (finalize_metadata (fun _ => "HASH") "pep" "20261012"
        (process_dataset_recursive true
          (fun x => if x = "PatientBirthDate" then some "X" else none)
          { initSt with batchSeriesUid := some (genUid 0) }
          [.mk "PatientBirthDate" "DA" false (.str "19700101"),
           .mk "ReferencedStudySequence" "SQ" false
             (.seq [[.mk "PatientBirthDate" "DA" false (.str "19700101")]])]).2
        (process_dataset_recursive true
          (fun x => if x = "PatientBirthDate" then some "X" else none)
          { initSt with batchSeriesUid := some (genUid 0) }
          [.mk "PatientBirthDate" "DA" false (.str "19700101"),
           .mk "ReferencedStudySequence" "SQ" false
             (.seq [[.mk "PatientBirthDate" "DA" false (.str "19700101")]])]).1
        1) = false :=
  c1_amended_remove_fields_absent true
    (fun x => if x = "PatientBirthDate" then some "X" else none)
    (fun _ => "HASH") "pep" "20261012"
    { initSt with batchSeriesUid := some (genUid 0) }
    [.mk "PatientBirthDate" "DA" false (.str "19700101"),
     .mk "ReferencedStudySequence" "SQ" false
       (.seq [[.mk "PatientBirthDate" "DA" false (.str "19700101")]])]
    1 "PatientBirthDate" rfl (by decide) (by decide) (by decide) (by decide)
    rfl (by decide)

/-- C7 counterexample.  A non-empty CS field ruled Z whose original value
already equals the CS default "U" is left byte-identical by the transform:
the claimed "anonymized value differs from the original" fails. -/
theorem c7_counterexample_default_equals_original :
    (process_dataset_recursive true
        (fun k => if k = "BodyPartExamined" then some "Z" else none) initSt
        [.mk "BodyPartExamined" "CS" false (.str "U")]).1 =
      [.mk "BodyPartExamined" "CS" false (.str "U")] := by decide

/-- C7 amended.  A scalar field ruled Z or D (not a mandatory-override field,
not VR SQ) is replaced by exactly _get_replacement_value of its VR: D always
gives "", and for Z the VR table gives a fresh UID for UI, "" for DA/TM/DT,
"0" for DS/IS, "000Y" for AS, "U" for CS and the "ANONYMIZED" placeholder
for the text VRs — so the anonymized value differs from the original
exactly when the original differs from that VR default. -/
theorem c7_amended_replace_default_table :
    (∀ (rules : String → Option String) (st : St) (k vr : String) (p : Bool)
       (v : String) (a : String), rules k = some a → (a = "Z" ∨ a = "D") →
       k ≠ "" → k ≠ "StudyInstanceUID" → k ≠ "SeriesInstanceUID" → vr ≠ "SQ" →
       process_elem rules st (.mk k vr p (.str v)) =
         ([.mk k vr p (.str (get_replacement_value vr a st.supply).1)],
          { st with supply := (get_replacement_value vr a st.supply).2 })) ∧
    (∀ (vr : String) (sup : Nat), get_replacement_value vr "D" sup = ("", sup)) ∧
    (∀ sup : Nat, get_replacement_value "UI" "Z" sup = (genUid sup, sup + 1)) ∧
    (∀ (vr : String) (sup : Nat), (vr = "DA" ∨ vr = "TM" ∨ vr = "DT") →
       get_replacement_value vr "Z" sup = ("", sup)) ∧
    (∀ (vr : String) (sup : Nat), (vr = "DS" ∨ vr = "IS") →
       get_replacement_value vr "Z" sup = ("0", sup)) ∧
    (∀ sup : Nat, get_replacement_value "AS" "Z" sup = ("000Y", sup)) ∧
    (∀ sup : Nat, get_replacement_value "CS" "Z" sup = ("U", sup)) ∧
    (∀ (vr : String) (sup : Nat),
       (vr = "PN" ∨ vr = "LO" ∨ vr = "SH" ∨ vr = "ST" ∨ vr = "LT" ∨ vr = "UT" ∨
        vr = "AE") →
       get_replacement_value vr "Z" sup = ("ANONYMIZED", sup)) := by
  refine ⟨?_, ?_, ?_, ?_, ?_, ?_, ?_, ?_⟩
  · intro rules st k vr p v a hr haz h0 h1 h2 h3
    have hax : a ≠ "X" := by rcases haz with h | h <;> (subst h; decide)
    have hau : a ≠ "U" := by rcases haz with h | h <;> (subst h; decide)
    rw [process_elem]
    rw [if_neg h0, if_neg h1, if_neg h2, if_neg h3, hr]
    simp only []
    rw [if_neg hax, if_neg hau, if_pos haz]
    all_goals intro _ h
    all_goals exact Value.noConfusion h
  · intro vr sup
    rw [get_replacement_value, if_pos rfl]
  · intro sup
    rfl
  · intro vr sup h
    rcases h with h | h | h <;> subst h <;> rfl
  · intro vr sup h
    rcases h with h | h <;> subst h <;> rfl
  · intro sup
    rfl
  · intro sup
    rfl
  · intro vr sup h
    rcases h with h | h | h | h | h | h | h <;> subst h <;> rfl

/-- C7 witness: a concrete Z on a date field empties it and consumes no
fresh identifier. -/
theorem c7_witness :
    process_elem (fun _ => some "Z") initSt
        (.mk "PatientBirthDate" "DA" false (.str "19700101")) =
      ([.mk "PatientBirthDate" "DA" false (.str "")], initSt) := by
  have h := c7_amended_replace_default_table.1 (fun _ => some "Z") initSt
    "PatientBirthDate" "DA" false "19700101" "Z" rfl (Or.inl rfl)
    (by decide) (by decide) (by decide) (by decide)
  rw [h]
  rfl

/-- C8 counterexample.  The transformer mutates the dataset passed to it in
place and returns that same object (anonym.py line 136: return dataset), so
after the call the tree bound to the caller's input variable — the returned
tree of the embedding — differs from the value that was passed in: the input
tree is not left unchanged. -/
theorem c8_counterexample_input_mutated :
    (process_dataset_recursive true
        (fun k => if k = "PatientBirthDate" then some "Z" else none) initSt
        [.mk "PatientBirthDate" "DA" false (.str "19700101")]).1 ≠
      [.mk "PatientBirthDate" "DA" false (.str "19700101")] := by decide

/-- C8 amended.  The transformer writes nothing of the run state but the UID
registry (uid map and fresh-identifier supply): the batch context (batch
study identifier, series identifier, series key) is read but never written,
and the captured patient identifier, loop index, audit log, outputs and
error log are untouched. -/
theorem c8_amended_transform_frame (removePriv : Bool)
    (rules : String → Option String) (st : St) (ds : Dataset) :
    (process_dataset_recursive removePriv rules st ds).2.batchStudyUid = st.batchStudyUid ∧
    (process_dataset_recursive removePriv rules st ds).2.batchSeriesUid = st.batchSeriesUid ∧
    (process_dataset_recursive removePriv rules st ds).2.currentSeriesKey = st.currentSeriesKey ∧
    (process_dataset_recursive removePriv rules st ds).2.pesel = st.pesel ∧
    (process_dataset_recursive removePriv rules st ds).2.nextIndex = st.nextIndex ∧
    (process_dataset_recursive removePriv rules st ds).2.auditLog = st.auditLog ∧
    (process_dataset_recursive removePriv rules st ds).2.outputs = st.outputs ∧
    (process_dataset_recursive removePriv rules st ds).2.errors = st.errors := by
  have h : ctxOf (process_dataset_recursive removePriv rules st ds).2 = ctxOf st :=
    process_elems_ctx rules st (if removePriv then remove_private_tags ds else ds)
  simp only [ctxOf, Prod.mk.injEq] at h
  exact h

/-! ## Scope-identifier lemmas -/

theorem seriesStep_batchStudyUid (st : St) (key : String) :
    (seriesStep st key).batchStudyUid = st.batchStudyUid := by
  unfold seriesStep
  split <;> rfl

theorem process_elem_batchStudy (rules : String → Option String) (st : St) (e : Elem) :
    (process_elem rules st e).2.batchStudyUid = st.batchStudyUid :=
  congrArg (fun t => t.1) (process_elem_ctx rules st e)

theorem process_elems_batchStudy (rules : String → Option String) (st : St)
    (ds : List Elem) :
    (process_elems rules st ds).2.batchStudyUid = st.batchStudyUid :=
  congrArg (fun t => t.1) (process_elems_ctx rules st ds)

theorem process_dr_batchStudy (removePriv : Bool) (rules : String → Option String)
    (st : St) (ds : Dataset) :
    (process_dataset_recursive removePriv rules st ds).2.batchStudyUid
      = st.batchStudyUid :=
  congrArg (fun t => t.1)
    (process_elems_ctx rules st (if removePriv then remove_private_tags ds else ds))

theorem stripPrivElem_vr (e : Elem) : (stripPrivElem e).vr = e.vr := by
  obtain ⟨k, vr, p, v⟩ := e
  rfl

theorem stripPrivElem_priv (e : Elem) : (stripPrivElem e).priv = e.priv := by
  obtain ⟨k, vr, p, v⟩ := e
  rfl

/-- Processing an element whose keyword is StudyInstanceUID rewrites its
value to the batch study identifier and leaves the state unchanged
(anonym.py lines 100-103: the mandatory override runs before the profile
rule and continues the loop). -/
theorem process_elem_study (rules : String → Option String) (st : St)
    (vr : String) (p : Bool) (v : Value) :
    process_elem rules st (.mk "StudyInstanceUID" vr p v) =
      ([.mk "StudyInstanceUID" vr p (.str st.batchStudyUid)], st) := by
  cases v <;>
    (rw [process_elem, if_neg (by decide), if_pos rfl]
     all_goals intro _ h
     all_goals exact Value.noConfusion h)

/-- Through the element loop, the first element found under StudyInstanceUID
comes out carrying the batch study identifier of the incoming state. -/
theorem process_elems_study (rules : String → Option String) :
    ∀ (ds : List Elem) (st : St) (e : Elem),
      lookupElem ds "StudyInstanceUID" = some e →
      lookupElem (process_elems rules st ds).1 "StudyInstanceUID" =
        some (.mk "StudyInstanceUID" e.vr e.priv (.str st.batchStudyUid))
  | [], st, e, h => by simp [lookupElem, List.find?] at h
  | e0 :: es, st, e, h => by
    simp only [lookupElem, List.find?] at h
    cases hb : (e0.keyword == "StudyInstanceUID") with
    | true =>
      rw [hb] at h
      injection h with h
      subst h
      have hk : e0.keyword = "StudyInstanceUID" := by simpa using hb
      obtain ⟨k0, vr0, p0, v0⟩ := e0
      simp only [Elem.keyword_mk] at hk
      subst hk
      rw [process_elems_cons, process_elem_study]
      simp only []
      simp [lookupElem, List.find?, Elem.keyword_mk, Elem.vr, Elem.priv]
    | false =>
      rw [hb] at h
      rw [process_elems_cons]
      have hbsu : (process_elem rules st e0).2.batchStudyUid = st.batchStudyUid :=
        process_elem_batchStudy rules st e0
      rcases process_elem_shape rules st e0 with hsh | ⟨v2, hsh⟩
      · rw [hsh]
        simp only [List.nil_append]
        rw [← hbsu]
        exact process_elems_study rules es _ e h
      · rw [hsh]
        simp only [List.cons_append, List.nil_append]
        have hb2 : ((Elem.mk e0.keyword e0.vr e0.priv v2).keyword ==
            "StudyInstanceUID") = false := by
          rw [Elem.keyword_mk]
          exact hb
        simp only [lookupElem, List.find?, hb2]
        rw [← hbsu]
        exact process_elems_study rules es _ e h

/-- The transform forces StudyInstanceUID: a dataset holding a non-private
StudyInstanceUID element comes out holding it with the batch study
identifier as value. -/
theorem process_dr_study (removePriv : Bool) (rules : String → Option String)
    (st : St) (ds : Dataset) (e : Elem)
    (h : lookupElem ds "StudyInstanceUID" = some e) (hp : e.priv = false) :
    lookupElem (process_dataset_recursive removePriv rules st ds).1
        "StudyInstanceUID" =
      some (.mk "StudyInstanceUID" e.vr e.priv (.str st.batchStudyUid)) := by
  rw [process_dataset_recursive]
  cases removePriv with
  | false =>
    rw [if_neg (by simp)]
    exact process_elems_study rules ds st e h
  | true =>
    rw [if_pos rfl]
    have h2 := remove_private_lookup "StudyInstanceUID" ds e h hp
    rw [process_elems_study rules (remove_private_tags ds) st _ h2,
        stripPrivElem_vr, stripPrivElem_priv]

/-- One file of the run loop never rewrites the batch study identifier. -/
theorem processFile_batchStudyUid (removePriv : Bool) (rules : String → Option String)
    (digest : String → String) (pepper today : String) (padding : Nat)
    (st : St) (fd : FileData) :
    (processFile removePriv rules digest pepper today padding st fd).batchStudyUid
      = st.batchStudyUid := by
  unfold processFile
  simp only []
  split
  · exact seriesStep_batchStudyUid _ _
  · next ds =>
    split
    · next e2 heq =>
      rw [process_dr_batchStudy, seriesStep_batchStudyUid]
    · next n st2 heq =>
      rw [compare_files_internal] at heq
      split at heq
      · cases heq
      · next diffs hcr =>
        injection heq with heq
        injection heq with heqn heqst
        subst heqst
        rw [process_dr_batchStudy, seriesStep_batchStudyUid]

/-- The whole run loop never rewrites the batch study identifier. -/
theorem runFold_batchStudyUid (removePriv : Bool) (rules : String → Option String)
    (digest : String → String) (pepper today : String) (padding : Nat)
    (fds : List FileData) :
    ∀ st : St,
      (runFold removePriv rules digest pepper today padding st fds).batchStudyUid
        = st.batchStudyUid := by
  induction fds with
  | nil => intro st; rfl
  | cons fd rest ih =>
    intro st
    rw [runFold, ih]
    exact processFile_batchStudyUid removePriv rules digest pepper today padding st fd

/-- C6 counterexample.  The sorted order uses the NUMERIC value of the series
group while the sequencer compares the RAW digit string, so files sharing
the numeric series 1 but spelled "1" and "01" interleave: the three files
IM-1-1 / IM-01-2 / IM-1-3 keep this order under the stable numeric sort,
the series key changes at every step, and the first and third file — same
detected group key "1" — receive distinct series identifiers (supply tokens
1 and 3), refuting "identical across files sharing a detected group key". -/
theorem c6_counterexample_interleaved_group_keys :
    ((mkFileData ("IM-1-1.dcm", none)).seriesStr =
       (mkFileData ("IM-1-3.dcm", none)).seriesStr ∧
     (mkFileData ("IM-01-2.dcm", none)).seriesStr ≠
       (mkFileData ("IM-1-1.dcm", none)).seriesStr ∧
     (mkFileData ("IM-1-1.dcm", none)).seriesSort =
       (mkFileData ("IM-01-2.dcm", none)).seriesSort) ∧
    ((anonym_run false (some (fun _ => none)) (fun _ => "H") "p" "20261012"
        [("IM-1-1.dcm", some [.mk "SeriesInstanceUID" "UI" false (.str "orig")]),
         ("IM-01-2.dcm", some [.mk "SeriesInstanceUID" "UI" false (.str "orig")]),
         ("IM-1-3.dcm", some [.mk "SeriesInstanceUID" "UI" false (.str "orig")])]).toOption.map
       (fun st => st.outputs.map
          (fun o => (o.1, (lookupElem o.2 "SeriesInstanceUID").map Elem.val))) =
      some [("AN-1-1.dcm", some (.str (genUid 1))),
            ("AN-01-2.dcm", some (.str (genUid 2))),
            ("AN-1-3.dcm", some (.str (genUid 3)))]) ∧
    genUid 1 ≠ genUid 3 :=
  ⟨⟨by decide, by decide, by decide⟩, by decide, by decide⟩

/-- C6 amended.  What does hold of the scope identifiers: (a) the batch
study identifier is drawn once at construction and never rewritten by the
run loop; (b) every processed file whose tree holds a non-private
StudyInstanceUID element yields exactly one saved output, and that output
carries the incoming batch study identifier as its StudyInstanceUID — so
with (a) every output file of one run carries the same batch identifier;
(c) over the sequencer (one series step per file in sorted order, fresh
supply), files at CONSECUTIVE positions with equal group keys receive the
same series identifier; (d) files with distinct group keys always receive
distinct series identifiers.  Only the within-a-group-key half of the claim
fails, exactly when equal keys are interleaved (the counterexample). -/
theorem c6_amended_scope_identifiers :
    (∀ (removePriv : Bool) (rules : String → Option String)
       (digest : String → String) (pepper today : String) (padding : Nat)
       (st : St) (fds : List FileData),
       (runFold removePriv rules digest pepper today padding st fds).batchStudyUid
         = st.batchStudyUid) ∧
    (∀ (removePriv : Bool) (rules : String → Option String)
       (digest : String → String) (pepper today : String) (padding : Nat)
       (st : St) (fd : FileData) (ds : Dataset) (e : Elem),
       fd.content = some ds →
       lookupElem ds "StudyInstanceUID" = some e → e.priv = false →
       ∃ fname ds2,
         (processFile removePriv rules digest pepper today padding st fd).outputs
           = st.outputs ++ [(fname, ds2)] ∧
         lookupElem ds2 "StudyInstanceUID" =
           some (.mk "StudyInstanceUID" e.vr e.priv (.str st.batchStudyUid))) ∧
    (∀ (st : St) (ks : List String) (i : Nat),
       st.currentSeriesKey = none → st.batchSeriesUid = none →
       ks[i + 1]? = ks[i]? →
       (seriesUids st ks)[i + 1]? = (seriesUids st ks)[i]?) ∧
    (∀ (st : St) (ks : List String) (i j : Nat) (p q : String),
       st.currentSeriesKey = none → st.batchSeriesUid = none →
       i < j → ks[i]? = some p → ks[j]? = some q → p ≠ q →
       (seriesUids st ks)[i]? ≠ (seriesUids st ks)[j]?) := by
  refine ⟨?_, ?_, ?_, ?_⟩
  · intro removePriv rules digest pepper today padding st fds
    exact runFold_batchStudyUid removePriv rules digest pepper today padding fds st
  · intro removePriv rules digest pepper today padding st fd ds e hc hlook hpriv
    unfold processFile
    rw [hc]
    simp only []
    split
    · next e2 heq =>
      refine ⟨?fn1, ?ds1, ?oe1, ?le1⟩
      case oe1 =>
        rw [process_dr_outputs, seriesStep_outputs]
        exact rfl
      case le1 =>
        rw [finalize_metadata]
        simp only []
        rw [setTag_lookup_ne "StudyInstanceUID" "DeidentificationMethod" _ _ (by decide)]
        rw [setTag_lookup_ne "StudyInstanceUID" "PatientIdentityRemoved" _ _ (by decide)]
        rw [setTag_lookup_ne "StudyInstanceUID" "InstanceNumber" _ _ (by decide)]
        rw [setTag_lookup_ne "StudyInstanceUID" "ContentDate" _ _ (by decide)]
        rw [setTag_lookup_ne "StudyInstanceUID" "SeriesDate" _ _ (by decide)]
        rw [setTag_lookup_ne "StudyInstanceUID" "StudyDate" _ _ (by decide)]
        rw [setTag_lookup_ne "StudyInstanceUID" "PatientName" _ _ (by decide)]
        rw [setTag_lookup_ne "StudyInstanceUID" "PatientID" _ _ (by decide)]
        rw [process_dr_study removePriv rules _ ds e hlook hpriv]
        simp only []
        rw [seriesStep_batchStudyUid]
    · next n st2 heq =>
      rw [compare_files_internal] at heq
      split at heq
      · cases heq
      · next diffs hcr =>
        injection heq with heq
        injection heq with heqn heqst
        subst heqst
        refine ⟨?fn2, ?ds2, ?oe2, ?le2⟩
        case oe2 =>
          rw [process_dr_outputs, seriesStep_outputs]
          exact rfl
        case le2 =>
          rw [finalize_metadata]
          simp only []
          rw [setTag_lookup_ne "StudyInstanceUID" "DeidentificationMethod" _ _ (by decide)]
          rw [setTag_lookup_ne "StudyInstanceUID" "PatientIdentityRemoved" _ _ (by decide)]
          rw [setTag_lookup_ne "StudyInstanceUID" "InstanceNumber" _ _ (by decide)]
          rw [setTag_lookup_ne "StudyInstanceUID" "ContentDate" _ _ (by decide)]
          rw [setTag_lookup_ne "StudyInstanceUID" "SeriesDate" _ _ (by decide)]
          rw [setTag_lookup_ne "StudyInstanceUID" "StudyDate" _ _ (by decide)]
          rw [setTag_lookup_ne "StudyInstanceUID" "PatientName" _ _ (by decide)]
          rw [setTag_lookup_ne "StudyInstanceUID" "PatientID" _ _ (by decide)]
          rw [process_dr_study removePriv rules _ ds e hlook hpriv]
          simp only []
          rw [seriesStep_batchStudyUid]
  · intro st ks i h1 h2 h3
    rw [seriesUids_eq_toks ks st none (Or.inl ⟨h1, h2, rfl⟩)]
    rw [List.getElem?_map, List.getElem?_map,
        seriesToksAux_consec ks none st.supply i h3]
  · intro st ks i j p q h1 h2 hij hp hq hpq
    rw [seriesUids_eq_toks ks st none (Or.inl ⟨h1, h2, rfl⟩)]
    have hwf : ∀ ck m, (none : Option (String × Nat)) = some (ck, m) →
        m < st.supply := fun ck m hcm => by cases hcm
    have hd := seriesToksAux_distinct ks none st.supply hwf i j p q hij hp hq hpq
    have hjlen : j < ks.length := by
      by_contra hge
      rw [List.getElem?_eq_none (by omega)] at hq
      cases hq
    have hti : (seriesToksAux none st.supply ks)[i]? =
        some ((seriesToksAux none st.supply ks).get
          ⟨i, by rw [seriesToksAux_length]; omega⟩) :=
      List.getElem?_eq_getElem (by rw [seriesToksAux_length]; omega)
    have htj : (seriesToksAux none st.supply ks)[j]? =
        some ((seriesToksAux none st.supply ks).get
          ⟨j, by rw [seriesToksAux_length]; omega⟩) :=
      List.getElem?_eq_getElem (by rw [seriesToksAux_length]; omega)
    intro hc
    rw [List.getElem?_map, List.getElem?_map, hti, htj] at hc
    have hg : genUid ((seriesToksAux none st.supply ks).get
          ⟨i, by rw [seriesToksAux_length]; omega⟩) =
        genUid ((seriesToksAux none st.supply ks).get
          ⟨j, by rw [seriesToksAux_length]; omega⟩) := Option.some.inj hc
    have heqt := genUid_injective hg
    apply hd
    rw [hti, htj, heqt]

/-- C6 witness: a concrete file carrying a StudyInstanceUID element yields
one output whose StudyInstanceUID is the batch identifier; on a fresh state,
the consecutive equal keys ["1", "1"] get equal series identifiers and the
distinct keys ["1", "2"] get distinct ones. -/
theorem c6_witness :
    (∃ fname ds2,
       (processFile false (fun _ => none) (fun _ => "H") "p" "20261012" 1 initSt
           ⟨"IM-1-1.dcm",
            some [.mk "StudyInstanceUID" "UI" false (.str "orig")],
            some 1, some 1, "1", "1", true⟩).outputs
         = initSt.outputs ++ [(fname, ds2)] ∧
       lookupElem ds2 "StudyInstanceUID" =
         some (.mk "StudyInstanceUID" "UI" false (.str initSt.batchStudyUid))) ∧
    (seriesUids initSt ["1", "1"])[0 + 1]? = (seriesUids initSt ["1", "1"])[0]? ∧
    (seriesUids initSt ["1", "2"])[0]? ≠ (seriesUids initSt ["1", "2"])[1]? :=
  ⟨c6_amended_scope_identifiers.2.1 false (fun _ => none) (fun _ => "H") "p"
     "20261012" 1 initSt
     ⟨"IM-1-1.dcm", some [.mk "StudyInstanceUID" "UI" false (.str "orig")],
      some 1, some 1, "1", "1", true⟩
     [.mk "StudyInstanceUID" "UI" false (.str "orig")]
     (.mk "StudyInstanceUID" "UI" false (.str "orig"))
     rfl rfl rfl,
   c6_amended_scope_identifiers.2.2.1 initSt ["1", "1"] 0 rfl rfl rfl,
   c6_amended_scope_identifiers.2.2.2 initSt ["1", "2"] 0 1 "1" "2" rfl rfl
     (by decide) rfl rfl (by decide)⟩

end MlApi
